import Mathlib

/-!
Sodaq_DS3231: calendar value type, BCD codec and register driver

A shallow embedding of `src/Sodaq_DS3231.cpp` and `src/Sodaq_DS3231.h`.

Conventions of the embedding
* The target is an Arduino board: `long` and `unsigned long` are 32 bits wide,
  `uint8_t`, `uint16_t`, `int16_t`, `uint32_t` have their fixed widths.
* Machine integers are `Nat` (unsigned) or `Int` (signed); every conversion to a
  narrower type that the source performs is written out with `toU8`, `toU16`,
  `toI16`, `toU32`, `toLong` (two's complement wrap).
* C division and remainder on signed operands truncate towards zero:
  `Int.tdiv` and `Int.tmod`.
* Arithmetic in `int` and `long` is carried out on unbounded integers and wrapped
  where the source stores or returns the value; where a statement depends on an
  intermediate `int` value, its bound is part of the statement.
* A C string is the list of its characters, a character its code.
* The chip is a register file, one byte per address; a driver method takes the
  register file and returns the register file after the call, next to its result
  when it has one.
* A read outside one of the two 12-entry tables, and a loop that has used up its
  iteration budget, give `none`.
-/

namespace Sodaq

/-! ## Machine integer conversions -/

/-- Conversion to `uint8_t`. -/
def toU8 (x : Int) : Nat := (x % 256).toNat

/-- Conversion to `uint16_t`. -/
def toU16 (x : Int) : Nat := (x % 65536).toNat

/-- Conversion to `uint32_t`. -/
def toU32 (x : Int) : Nat := (x % 4294967296).toNat

/-- Conversion to `int16_t` (two's complement wrap). -/
def toI16 (x : Int) : Int := (x + 32768) % 65536 - 32768

/-- Conversion to the 32-bit signed `long` (two's complement wrap). -/
def toLong (x : Int) : Int := (x + 2147483648) % 4294967296 - 2147483648

/-! ## Constants and tables -/

/-- The macro `EPOCH_TIME_OFF`: 2000-01-01 00:00:00 in Unix time. -/
def EPOCH_TIME_OFF : Nat := 946684800

/-- The table `daysInMonth`. -/
def daysInMonth : List Nat := [31, 28, 31, 30, 31, 30, 31, 31, 30, 31, 30, 31]

/-- The table `t` local to `DayOfWeek`. -/
def dowTable : List Int := [0, 3, 2, 5, 0, 3, 5, 1, 4, 6, 2, 4]

/-- The read `pgm_read_byte(daysInMonth + m - 1)`; `none` outside the table. -/
def readDaysInMonth (m : Nat) : Option Nat :=
  if m = 0 then none else daysInMonth[m - 1]?

/-! ## Utility code -/

/-- The `for` loop of `date2days`: `n` iterations are left, `i` is the loop
variable, `days` the `uint16_t` accumulator. -/
def date2days_loop : Nat → Nat → Nat → Option Nat
  | 0, _, days => some days
  | n + 1, i, days =>
    match readDaysInMonth i with
    | none => none
    | some v => date2days_loop n (i + 1) ((days + v) % 65536)

/-- The function `date2days(uint16_t y, uint8_t m, uint8_t d)`. -/
def date2days (y m d : Nat) : Option Nat :=
  let y := if y ≥ 2000 then y - 2000 else y
  match date2days_loop (m - 1) 1 d with
  | none => none
  | some days =>
    let days := if m > 2 ∧ y % 4 = 0 then (days + 1) % 65536 else days
    some (toU16 ((days : Int) + 365 * (y : Int) + ((y : Int) + 3) / 4 - 1))

/-- The sum inside `DayOfWeek`, after `y -= m < 3`, as an `int`. -/
def DayOfWeek_sum (y : Int) (tm : Int) (d : Nat) : Int :=
  y + Int.tdiv y 4 - Int.tdiv y 100 + Int.tdiv y 400 + tm + (d : Int)

/-- The function `DayOfWeek(int y, byte m, byte d)`. -/
def DayOfWeek (y : Int) (m d : Nat) : Option Nat :=
  let y := y - (if m < 3 then 1 else 0)
  if m = 0 then none
  else
    match dowTable[m - 1]? with
    | none => none
    | some tm => some (toU8 (Int.tmod (DayOfWeek_sum y tm d) 7 + 1))

/-- The function `time2long(uint16_t days, uint8_t h, uint8_t m, uint8_t s)`;
the `long` result is returned as `uint32_t`. -/
def time2long (days h m s : Nat) : Nat :=
  toU32 (((((days : Int) * 24 + (h : Int)) * 60 + (m : Int)) * 60) + (s : Int))

/-- The function `conv2d(const char* p)` at offset `i` of the text `p`. -/
def conv2d (p : List Char) (i : Nat) : Option Nat :=
  match p[i]?, p[i + 1]? with
  | some c0, some c1 =>
    let v : Int := if 48 ≤ c0.toNat ∧ c0.toNat ≤ 57 then toU8 ((c0.toNat : Int) - 48) else 0
    some (toU8 (10 * v + (c1.toNat : Int) - 48))
  | _, _ => none

/-! ## The calendar value type -/

/-- The class `DateTime`: seven `uint8_t` fields. -/
structure DateTime where
  yOff : Nat
  m : Nat
  d : Nat
  hh : Nat
  mm : Nat
  ss : Nat
  wday : Nat
deriving DecidableEq

/-- The year loop of `DateTime(long)`: `yOff` is a `uint8_t`, `days` an
`int16_t`; the result is `(yOff, days, leap)` at the `break`. -/
def yearLoop : Nat → Nat → Int → Option (Nat × Int × Nat)
  | 0, _, _ => none
  | fuel + 1, yOff, days =>
    let leap : Nat := if yOff % 4 = 0 then 1 else 0
    if days < 365 + (leap : Int) then some (yOff, days, leap)
    else yearLoop fuel ((yOff + 1) % 256) (toI16 (days - (365 + (leap : Int))))

/-- The month loop of `DateTime(long)`: `m` is a `uint8_t`, `days` an
`int16_t`; the result is `(m, days)` at the `break`. -/
def monthLoop : Nat → Nat → Int → Nat → Option (Nat × Int)
  | 0, _, _, _ => none
  | fuel + 1, m, days, leap =>
    match readDaysInMonth m with
    | none => none
    | some v =>
      let daysPerMonth : Nat := if leap ≠ 0 ∧ m = 2 then (v + 1) % 256 else v
      if days < (daysPerMonth : Int) then some (m, days)
      else monthLoop fuel ((m + 1) % 256) (toI16 (days - (daysPerMonth : Int))) leap

/-- Iteration budget of the year loop: an `int16_t` day count is below
`90 * 365`. -/
def yearFuel : Nat := 90

/-- Iteration budget of the month loop: the table has 12 entries. -/
def monthFuel : Nat := 13

/-- The constructor `DateTime::DateTime(long t)`. -/
def DateTime.ofLong (t : Int) : Option DateTime :=
  let ss := toU8 (Int.tmod t 60)
  let t1 := Int.tdiv t 60
  let mm := toU8 (Int.tmod t1 60)
  let t2 := Int.tdiv t1 60
  let hh := toU8 (Int.tmod t2 24)
  let days := toI16 (Int.tdiv t2 24)
  match yearLoop yearFuel 0 days with
  | none => none
  | some (yOff, days1, leap) =>
    match monthLoop monthFuel 1 days1 leap with
    | none => none
    | some (m, days2) =>
      let d := toU8 (days2 + 1)
      match DayOfWeek ((yOff : Int) + 2000) m d with
      | none => none
      | some wday => some ⟨yOff, m, d, hh, mm, ss, wday⟩

/-- The constructor `DateTime::DateTime(uint16_t year, uint8_t month, ...)`. -/
def DateTime.ofFields (year month date hour min sec wd : Nat) : DateTime :=
  let year := if year ≥ 2000 then year - 2000 else year
  ⟨year % 256, month, date, hour, min, sec, wd⟩

/-- The `switch (date[0])` of the text constructor; `none` when no `case`
assigns `m`. -/
def monthOfText (date : List Char) : Option Nat :=
  match date[0]?, date[1]?, date[2]? with
  | some c0, some c1, some c2 =>
    if c0 = 'J' then some (if c1 = 'a' then 1 else if c2 = 'n' then 6 else 7)
    else if c0 = 'F' then some 2
    else if c0 = 'A' then some (if c2 = 'r' then 4 else 8)
    else if c0 = 'M' then some (if c2 = 'r' then 3 else 5)
    else if c0 = 'S' then some 9
    else if c0 = 'O' then some 10
    else if c0 = 'N' then some 11
    else if c0 = 'D' then some 12
    else none
  | _, _, _ => none

/-- The constructor `DateTime::DateTime(const char* date, const char* time)`. -/
def DateTime.ofText (date time : List Char) : Option DateTime :=
  match conv2d date 9, monthOfText date, conv2d date 4,
        conv2d time 0, conv2d time 3, conv2d time 6 with
  | some yOff, some m, some d, some hh, some mm, some ss =>
    match DayOfWeek ((yOff : Int) + 2000) m d with
    | none => none
    | some wday => some ⟨yOff, m, d, hh, mm, ss, wday⟩
  | _, _, _, _, _, _ => none

/-- The accessor `second()`. -/
def DateTime.second (dt : DateTime) : Nat := dt.ss

/-- The accessor `minute()`. -/
def DateTime.minute (dt : DateTime) : Nat := dt.mm

/-- The accessor `hour()`. -/
def DateTime.hour (dt : DateTime) : Nat := dt.hh

/-- The accessor `date()`. -/
def DateTime.date (dt : DateTime) : Nat := dt.d

/-- The accessor `month()`. -/
def DateTime.month (dt : DateTime) : Nat := dt.m

/-- The accessor `year()`, a `uint16_t`. -/
def DateTime.year (dt : DateTime) : Nat := (2000 + dt.yOff) % 65536

/-- The accessor `year2k()`. -/
def DateTime.year2k (dt : DateTime) : Nat := dt.yOff

/-- The accessor `dayOfWeek()`. -/
def DateTime.dayOfWeek (dt : DateTime) : Nat := dt.wday

/-- The method `DateTime::get()`. -/
def DateTime.get (dt : DateTime) : Option Nat :=
  match date2days dt.yOff dt.m dt.d with
  | none => none
  | some days => some (time2long days dt.hh dt.mm dt.ss)

/-- The method `DateTime::getEpoch()`. -/
def DateTime.getEpoch (dt : DateTime) : Option Nat :=
  match dt.get with
  | none => none
  | some g => some (toU32 ((g : Int) + (EPOCH_TIME_OFF : Int)))

/-- The method `DateTime::getY2k_secs()`. -/
def DateTime.getY2k_secs (dt : DateTime) : Option Nat := dt.get

/-! ## Text rendering -/

/-- The statement `str += val` of the Arduino `String` class for an integer
operand: the decimal digits of `val` are appended. -/
def appendNum (str : List Char) (val : Nat) : List Char := str ++ Nat.toDigits 10 val

/-- The function `add0Nd(String &str, uint16_t val, size_t width)`. -/
def add0Nd (str : List Char) (val width : Nat) : List Char :=
  let str := if width ≥ 5 ∧ val < 1000 then str ++ ['0'] else str
  let str := if width ≥ 4 ∧ val < 100 then str ++ ['0'] else str
  let str := if width ≥ 3 ∧ val < 100 then str ++ ['0'] else str
  let str := if width ≥ 2 ∧ val < 10 then str ++ ['0'] else str
  appendNum str val

/-- The function `add04d`. -/
def add04d (str : List Char) (val : Nat) : List Char := add0Nd str val 4

/-- The function `add02d`. -/
def add02d (str : List Char) (val : Nat) : List Char := add0Nd str val 2

/-- The method `DateTime::addToString(String & str)`. -/
def DateTime.addToString (dt : DateTime) (str : List Char) : List Char :=
  let str := add04d str dt.year
  let str := str ++ ['-']
  let str := add02d str dt.month
  let str := str ++ ['-']
  let str := add02d str dt.date
  let str := str ++ [' ']
  let str := add02d str dt.hour
  let str := str ++ [':']
  let str := add02d str dt.minute
  let str := str ++ [':']
  add02d str dt.second

/-- The decimal digit character of `n < 10`. -/
def digitChar (n : Nat) : Char := Char.ofNat (48 + n)

/-! ## BCD codec -/

/-- The function `bcd2bin(uint8_t val)`. -/
def bcd2bin (val : Nat) : Nat := toU8 ((val : Int) - 6 * ((val >>> 4 : Nat) : Int))

/-- The function `bin2bcd(uint8_t val)`. -/
def bin2bcd (val : Nat) : Nat := toU8 ((val : Int) + 6 * ((val : Int) / 10))

/-! ## Register file and bus -/

/-- The macro `DS3231_SEC_REG`. -/
def DS3231_SEC_REG : Nat := 0x00

/-- Modelled from the spec: the chip's register file, one byte per register
address (the chip itself is hardware, not code of the repository). -/
abbrev Regs := Nat → Nat

/-- Modelled from the spec: a register stores the byte written to it. -/
def Regs.write (r : Regs) (a v : Nat) : Regs := fun x => if x = a then v else r x

/-- Modelled from the spec: the data bytes of one bus transmission are stored in
consecutive registers, the address auto-incrementing. -/
def Regs.writeSeq (r : Regs) (a : Nat) : List Nat → Regs
  | [] => r
  | v :: vs => Regs.writeSeq (Regs.write r a v) (a + 1) vs

/-- Modelled from the spec: one write transmission
(`Wire.beginTransmission`, the `Wire.write` calls, `Wire.endTransmission`): the
first byte is the register address, the rest is data. -/
def Regs.transmit (r : Regs) : List Nat → Regs
  | [] => r
  | a :: data => Regs.writeSeq r a data

/-! ## The driver: setting the time -/

/-- The bytes `Sodaq_DS3231::setDateTime` passes to `Wire.write`, in order. -/
def setDateTime_bytes (dt : DateTime) : List Nat :=
  [DS3231_SEC_REG,
   bin2bcd dt.second,
   bin2bcd dt.minute,
   bin2bcd (dt.hour &&& 0b10111111),
   dt.dayOfWeek,
   bin2bcd dt.date,
   bin2bcd dt.month,
   bin2bcd (toU8 ((dt.year : Int) - 2000))]

/-- The method `Sodaq_DS3231::setDateTime`. -/
def setDateTime (r : Regs) (dt : DateTime) : Regs := Regs.transmit r (setDateTime_bytes dt)

/-- The method `Sodaq_DS3231::makeDateTime(unsigned long t)`; the argument of
`DateTime(long)` is the `unsigned long` difference converted to `long`. -/
def makeDateTime (t : Nat) : Option DateTime :=
  if t < EPOCH_TIME_OFF then DateTime.ofLong 0
  else DateTime.ofLong (toLong (toU32 ((t : Int) - (EPOCH_TIME_OFF : Int))))

/-- The method `Sodaq_DS3231::setEpoch(uint32_t ts)`. -/
def setEpoch (r : Regs) (ts : Nat) : Option Regs :=
  match makeDateTime ts with
  | none => none
  | some dt => some (setDateTime r dt)

/-! ## Reference notions used in the statements -/

/-- Number of days of month `m` of the calendar in a year whose leap flag is
`leap`; `0` when `m` is not a month. -/
def monthLength (leap : Bool) (m : Nat) : Nat :=
  if m = 2 then (if leap then 29 else 28)
  else if m = 4 ∨ m = 6 ∨ m = 9 ∨ m = 11 then 30
  else if 1 ≤ m ∧ m ≤ 12 then 31
  else 0

/-- Days of the year before the first day of month `m`. -/
def daysBeforeMonth (leap : Bool) (m : Nat) : Nat :=
  ((List.range (m - 1)).map (fun i => monthLength leap (i + 1))).sum

/-- Days from 2000-01-01 to the first day of year `2000 + y`, modulo-4 leap
rule. -/
def daysBeforeYear (y : Nat) : Nat := 365 * y + (y + 3) / 4

/-- Leap flag of year offset `y` under the modulo-4 rule. -/
def isLeap (y : Nat) : Bool := y % 4 = 0

/-- The twelve month abbreviations of the date text, in calendar order. -/
def monthNames : List (List Char) :=
  [['J', 'a', 'n'], ['F', 'e', 'b'], ['M', 'a', 'r'], ['A', 'p', 'r'], ['M', 'a', 'y'],
   ['J', 'u', 'n'], ['J', 'u', 'l'], ['A', 'u', 'g'], ['S', 'e', 'p'], ['O', 'c', 't'],
   ['N', 'o', 'v'], ['D', 'e', 'c']]

/-- The character is a decimal digit. -/
def isDigit (c : Char) : Prop := 48 ≤ c.toNat ∧ c.toNat ≤ 57

instance isDigit_decidable (c : Char) : Decidable (isDigit c) := by
  unfold isDigit
  infer_instance

/-- The value of a decimal digit character. -/
def digitVal (c : Char) : Nat := c.toNat - 48

/-- The value of a two-character field: two digits, or a space followed by one
digit. -/
def field2 (c0 c1 : Char) : Nat := (if c0 = ' ' then 0 else 10 * digitVal c0) + digitVal c1

/-! ## Register map -/

/-- The macro `DS3231_MIN_REG`. -/
def DS3231_MIN_REG : Nat := 0x01

/-- The macro `DS3231_HOUR_REG`. -/
def DS3231_HOUR_REG : Nat := 0x02

/-- The macro `DS3231_WDAY_REG`. -/
def DS3231_WDAY_REG : Nat := 0x03

/-- The macro `DS3231_MDAY_REG`. -/
def DS3231_MDAY_REG : Nat := 0x04

/-- The macro `DS3231_MONTH_REG`. -/
def DS3231_MONTH_REG : Nat := 0x05

/-- The macro `DS3231_YEAR_REG`. -/
def DS3231_YEAR_REG : Nat := 0x06

/-- The macro `DS3231_AL1SEC_REG`. -/
def DS3231_AL1SEC_REG : Nat := 0x07

/-- The macro `DS3231_AL1MIN_REG`. -/
def DS3231_AL1MIN_REG : Nat := 0x08

/-- The macro `DS3231_AL1HOUR_REG`. -/
def DS3231_AL1HOUR_REG : Nat := 0x09

/-- The macro `DS3231_AL1WDAY_REG`. -/
def DS3231_AL1WDAY_REG : Nat := 0x0A

/-- The macro `DS3231_AL2MIN_REG`. -/
def DS3231_AL2MIN_REG : Nat := 0x0B

/-- The macro `DS3231_AL2HOUR_REG`. -/
def DS3231_AL2HOUR_REG : Nat := 0x0C

/-- The macro `DS3231_AL2WDAY_REG`. -/
def DS3231_AL2WDAY_REG : Nat := 0x0D

/-- The macro `DS3231_CONTROL_REG`. -/
def DS3231_CONTROL_REG : Nat := 0x0E

/-- The macro `DS3231_STATUS_REG`. -/
def DS3231_STATUS_REG : Nat := 0x0F

/-- The macro `EverySecond`. -/
def EverySecond : Nat := 0x01

/-- The macro `EveryMinute`. -/
def EveryMinute : Nat := 0x02

/-- The macro `EveryHour`. -/
def EveryHour : Nat := 0x03

/-- The enumerator `EVERY_SECOND` of `ALARM_TYPES_t`. -/
def EVERY_SECOND : Nat := 0x0F

/-- The enumerator `MATCH_SECONDS` of `ALARM_TYPES_t`. -/
def MATCH_SECONDS : Nat := 0x0E

/-- The enumerator `MATCH_MINUTES` of `ALARM_TYPES_t`. -/
def MATCH_MINUTES : Nat := 0x0C

/-- The enumerator `MATCH_HOURS` of `ALARM_TYPES_t`. -/
def MATCH_HOURS : Nat := 0x08

/-- The enumerator `MATCH_DATE` of `ALARM_TYPES_t`. -/
def MATCH_DATE : Nat := 0x00

/-- The enumerator `MATCH_DAY` of `ALARM_TYPES_t`. -/
def MATCH_DAY : Nat := 0x10

/-! ## The driver: register access -/

/-- Modelled from the spec: a read request for `n` bytes delivers the bytes of
the `n` consecutive registers starting at the address `a` set by the preceding
transmission (a register holds one byte). -/
def Regs.readSeq (r : Regs) (a n : Nat) : List Nat :=
  (List.range n).map (fun i => r (a + i) % 256)

/-- The method `Sodaq_DS3231::readRegister`: a transmission carrying the address
only, then a request for one byte; the result is the byte and the register file
after the call. -/
def readRegister (r : Regs) (regaddress : Nat) : Nat × Regs :=
  let r1 := Regs.transmit r [regaddress]
  ((Regs.readSeq r1 regaddress 1).getD 0 0, r1)

/-- The method `Sodaq_DS3231::writeRegister`. -/
def writeRegister (r : Regs) (regaddress value : Nat) : Regs :=
  Regs.transmit r [regaddress, value]

/-- The method `Sodaq_DS3231::begin`: the returned byte and the register file
after the call. -/
def begin (r : Regs) : Nat × Regs :=
  let ctReg := 0 ||| 0b00011100
  let r1 := writeRegister r DS3231_CONTROL_REG ctReg
  let rd := readRegister r1 DS3231_HOUR_REG
  let hrReg := rd.1 &&& 0b10111111
  let r2 := writeRegister rd.2 DS3231_HOUR_REG hrReg
  (1, r2)

/-- The method `Sodaq_DS3231::now`: eight bytes are requested from address
`0x00`, seven are consumed; `hrreg & ~0b11000000` keeps the low six bits. -/
def now (r : Regs) : DateTime × Regs :=
  let r1 := Regs.transmit r [0x00]
  let buf := Regs.readSeq r1 0x00 8
  let ss := bcd2bin (buf.getD 0 0)
  let mm := bcd2bin (buf.getD 1 0)
  let hrreg := buf.getD 2 0
  let hh := bcd2bin (hrreg &&& 0b00111111)
  let wd := buf.getD 3 0
  let d := bcd2bin (buf.getD 4 0)
  let m := bcd2bin (buf.getD 5 0)
  let y := (bcd2bin (buf.getD 6 0) + 2000) % 65536
  (DateTime.ofFields y m d hh mm ss wd, r1)

/-- The method `Sodaq_DS3231::enableInterrupts(uint8_t periodicity)`. -/
def enableInterrupts (r : Regs) (periodicity : Nat) : Regs :=
  let ctReg := 0 ||| 0b00011101
  let r1 := writeRegister r DS3231_CONTROL_REG ctReg
  if periodicity = EverySecond then
    let r2 := writeRegister r1 DS3231_AL1SEC_REG 0b10000000
    let r3 := writeRegister r2 DS3231_AL1MIN_REG 0b10000000
    let r4 := writeRegister r3 DS3231_AL1HOUR_REG 0b10000000
    writeRegister r4 DS3231_AL1WDAY_REG 0b10000000
  else if periodicity = EveryMinute then
    let r2 := writeRegister r1 DS3231_AL1SEC_REG 0b00000000
    let r3 := writeRegister r2 DS3231_AL1MIN_REG 0b10000000
    let r4 := writeRegister r3 DS3231_AL1HOUR_REG 0b10000000
    writeRegister r4 DS3231_AL1WDAY_REG 0b10000000
  else if periodicity = EveryHour then
    let r2 := writeRegister r1 DS3231_AL1SEC_REG 0b00000000
    let r3 := writeRegister r2 DS3231_AL1MIN_REG 0b00000000
    let r4 := writeRegister r3 DS3231_AL1HOUR_REG 0b10000000
    writeRegister r4 DS3231_AL1WDAY_REG 0b10000000
  else r1

/-- The method `Sodaq_DS3231::enableInterrupts(uint8_t hh24, uint8_t mm,
uint8_t ss)`. -/
def enableInterrupts_hms (r : Regs) (hh24 mm ss : Nat) : Regs :=
  let ctReg := 0 ||| 0b00011101
  let r1 := writeRegister r DS3231_CONTROL_REG ctReg
  let r2 := writeRegister r1 DS3231_AL1SEC_REG (0b00000000 ||| bin2bcd ss)
  let r3 := writeRegister r2 DS3231_AL1MIN_REG (0b00000000 ||| bin2bcd mm)
  let r4 := writeRegister r3 DS3231_AL1HOUR_REG (0b00000000 ||| (bin2bcd hh24 &&& 0b10111111))
  writeRegister r4 DS3231_AL1WDAY_REG 0b10000000

/-- The method `Sodaq_DS3231::enableInterrupts(ALARM_TYPES_t alarmType,
uint8_t daydate, uint8_t hh24, uint8_t minutes, uint8_t seconds)`. -/
def enableInterrupts_alarm (r : Regs) (alarmType daydate hh24 minutes seconds : Nat) : Regs :=
  let ctReg := 0 ||| 0b00011101
  let r1 := writeRegister r DS3231_CONTROL_REG ctReg
  let seconds := bin2bcd seconds
  let minutes := bin2bcd minutes
  let hh24 := bin2bcd hh24
  let daydate := bin2bcd daydate
  let seconds := if alarmType &&& 0x01 ≠ 0 then seconds ||| 0b10000000 else seconds
  let minutes := if alarmType &&& 0x02 ≠ 0 then minutes ||| 0b10000000 else minutes
  let hh24 := if alarmType &&& 0x04 ≠ 0 then hh24 ||| 0b10000000 else hh24
  let hh24 := if alarmType &&& 0x10 ≠ 0 then hh24 ||| 0b01000000 else hh24
  let daydate := if alarmType &&& 0x08 ≠ 0 then daydate ||| 0b10000000 else daydate
  let r2 := writeRegister r1 DS3231_AL1SEC_REG seconds
  let r3 := writeRegister r2 DS3231_AL1MIN_REG minutes
  let r4 := writeRegister r3 DS3231_AL1HOUR_REG hh24
  writeRegister r4 DS3231_AL1WDAY_REG daydate

/-- The method `Sodaq_DS3231::clearINTStatus`. -/
def clearINTStatus (r : Regs) : Regs :=
  let rd := readRegister r DS3231_STATUS_REG
  let statusReg := rd.1 &&& 0b11111110
  writeRegister rd.2 DS3231_STATUS_REG statusReg

/-! ## The driver: alarm verification -/

/-- The macro `DS3231_ALM1_SZ`. -/
def DS3231_ALM1_SZ : Nat := 4

/-- The table `alm1Ref_1second_pm`. -/
def alm1Ref_1second_pm : List Nat := [0x80, 0x80, 0x80, 0x80]

/-- The table `alm1Ref_1minute_pm`. -/
def alm1Ref_1minute_pm : List Nat := [0x00, 0x80, 0x80, 0x80]

/-- The table `alm1Ref_1hour_pm`. -/
def alm1Ref_1hour_pm : List Nat := [0x00, 0x00, 0x80, 0x80]

/-- The macro `DS3231_ALM1_EN`. -/
def DS3231_ALM1_EN : Nat := 0b00000101

/-- The macro `DS3231_ALM2_SZ`. -/
def DS3231_ALM2_SZ : Nat := 4

/-- The table `alm2Ref_1minute_pm`. -/
def alm2Ref_1minute_pm : List Nat := [0x80, 0x80, 0x80, 0b00000110]

/-- The table `alm2Ref_1hour_pm`. -/
def alm2Ref_1hour_pm : List Nat := [0x00, 0x80, 0x80, 0b00000110]

/-- The expression `(bool)(devReg ^ ref) ? bit : 0`. -/
def cmpBit (devReg ref bit : Nat) : Nat := if devReg ^^^ ref ≠ 0 then bit else 0

/-- The method `Sodaq_DS3231::enableInterruptsCheckAlm1`; `sz_read` is the byte
count that `Wire.requestFrom` reports. The result is the returned byte and the
register file after the call. -/
def enableInterruptsCheckAlm1 (r : Regs) (sz_read periodicity : Nat) : Nat × Regs :=
  let cmp_result := 0
  let rd := readRegister r DS3231_CONTROL_REG
  let devReg := rd.1 &&& DS3231_ALM1_EN
  let cmp_result := cmp_result ||| cmpBit devReg DS3231_ALM1_EN 0x01
  let p_almReg_pm : Option (List Nat) :=
    if periodicity = EverySecond then some alm1Ref_1second_pm
    else if periodicity = EveryMinute then some alm1Ref_1minute_pm
    else if periodicity = EveryHour then some alm1Ref_1hour_pm
    else none
  match p_almReg_pm with
  | none => (0xFF, rd.2)
  | some ref =>
    let r1 := Regs.transmit rd.2 [DS3231_AL1SEC_REG]
    if DS3231_ALM1_SZ = sz_read then
      let buf := Regs.readSeq r1 DS3231_AL1SEC_REG DS3231_ALM1_SZ
      let cmp_result := cmp_result ||| cmpBit (buf.getD 0 0) (ref.getD 0 0) 0x02
      let cmp_result := cmp_result ||| cmpBit (buf.getD 1 0) (ref.getD 1 0) 0x04
      let cmp_result := cmp_result ||| cmpBit (buf.getD 2 0) (ref.getD 2 0) 0x08
      let cmp_result := cmp_result ||| cmpBit (buf.getD 3 0) (ref.getD 3 0) 0x10
      (cmp_result, r1)
    else (cmp_result, r1)

/-- The method `Sodaq_DS3231::enableInterruptsCheckAlm2`; `sz_read` is the byte
count that `Wire.requestFrom` reports. The result is the returned byte and the
register file after the call. -/
def enableInterruptsCheckAlm2 (r : Regs) (sz_read periodicity : Nat) : Nat × Regs :=
  let cmp_result := 0
  let p_almReg_pm : Option (List Nat) :=
    if periodicity = EveryMinute then some alm2Ref_1minute_pm
    else if periodicity = EveryHour then some alm2Ref_1hour_pm
    else none
  match p_almReg_pm with
  | none => (0xFF, r)
  | some ref =>
    let r1 := Regs.transmit r [DS3231_AL2MIN_REG]
    if DS3231_ALM2_SZ = sz_read then
      let buf := Regs.readSeq r1 DS3231_AL2MIN_REG DS3231_ALM2_SZ
      let cmp_result := cmp_result ||| cmpBit (buf.getD 0 0) (ref.getD 0 0) 0x04
      let cmp_result := cmp_result ||| cmpBit (buf.getD 1 0) (ref.getD 1 0) 0x08
      let cmp_result := cmp_result ||| cmpBit (buf.getD 2 0) (ref.getD 2 0) 0x10
      let cmp_result := cmp_result ||| cmpBit (buf.getD 3 0) (ref.getD 3 0) 0x01
      (cmp_result, r1)
    else (cmp_result, r1)

/-- The BCD byte of `n < 100`: tens digit in the high nibble, units digit in the
low nibble. -/
def bcdOf (n : Nat) : Nat := 16 * (n / 10) + n % 10

/-- Number of alarm-1 registers `0x07..0x0A` whose always-match bit (bit 7) is
set. -/
def alarm1MaskCount (r : Regs) : Nat :=
  ((List.range 4).filter (fun i => Nat.testBit (r (0x07 + i)) 7)).length

/-- The four alarm-1 registers `0x07..0x0A` hold, in their low seven bits, the
BCD bytes of `s`, `m`, `h`, `d`, and their always-match bits (bit 7) are `a1`,
`a2`, `a3`, `a4`. -/
def alarm1Holds (r : Regs) (s m h d : Nat) (a1 a2 a3 a4 : Bool) : Prop :=
  r 0x07 % 128 = bcdOf s ∧ Nat.testBit (r 0x07) 7 = a1 ∧
  r 0x08 % 128 = bcdOf m ∧ Nat.testBit (r 0x08) 7 = a2 ∧
  r 0x09 % 128 = bcdOf h ∧ Nat.testBit (r 0x09) 7 = a3 ∧
  r 0x0A % 128 = bcdOf d ∧ Nat.testBit (r 0x0A) 7 = a4

/-! ## The driver: alarm 2, temperature -/

/-- The macro `DS3231_TMP_UP_REG`. -/
def DS3231_TMP_UP_REG : Nat := 0x11

/-- The macro `DS3231_TMP_LOW_REG`. -/
def DS3231_TMP_LOW_REG : Nat := 0x12

/-- The method `Sodaq_DS3231::writeRegister_pm`: one transmission carrying the
address and the first `len` bytes of the table `buf`. -/
def writeRegister_pm (r : Regs) (regaddress : Nat) (buf : List Nat) (len : Nat) : Regs :=
  Regs.transmit r (regaddress :: (List.range len).map (fun buf_lp => buf.getD buf_lp 0))

/-- The method `Sodaq_DS3231::enableInterruptsAlm2`. -/
def enableInterruptsAlm2 (r : Regs) (periodicity : Nat) : Regs :=
  let p_almReg_pm : Option (List Nat) :=
    if periodicity = EveryMinute then some alm2Ref_1minute_pm
    else if periodicity = EveryHour then some alm2Ref_1hour_pm
    else none
  match p_almReg_pm with
  | none => r
  | some ref => writeRegister_pm r DS3231_AL2MIN_REG ref DS3231_ALM2_SZ

/-- The busy-wait loop of `convertTemperature`,
`while ((readRegister(DS3231_CONTROL_REG) & 0b00100000) == 0b00100000) {}`.
Modelled from the spec: the chip clears the CONV bit by itself, so the bytes
that the successive reads of the control register deliver are given as the list
`reads`. The result is the number of reads made when the loop exits, `none` when
every byte of `reads` still has CONV set. -/
def convertTemperature_wait : List Nat → Nat → Option Nat
  | [], _ => none
  | b :: bs, n =>
    if b &&& 0b00100000 = 0b00100000 then convertTemperature_wait bs (n + 1)
    else some (n + 1)

/-- The method `Sodaq_DS3231::convertTemperature(bool waitToFinish)`: the
register file after the trigger write and the number of polls of the control
register made before returning. -/
def convertTemperature (r : Regs) (waitToFinish : Bool) (reads : List Nat) :
    Option (Regs × Nat) :=
  let rd := readRegister r DS3231_CONTROL_REG
  let ctReg := rd.1 ||| 0b00100000
  let r1 := writeRegister rd.2 DS3231_CONTROL_REG ctReg
  if !waitToFinish then
    match convertTemperature_wait reads 0 with
    | none => none
    | some polls => some (r1, polls)
  else some (r1, 0)

/-- The method `Sodaq_DS3231::getTemperature`. Every value involved is a multiple
of `0.25` of magnitude at most `128.75`, which `float` represents exactly, so the
arithmetic is carried out on rationals. -/
def getTemperature (r : Regs) : ℚ × Regs :=
  let rd1 := readRegister r DS3231_TMP_UP_REG
  let tUBYTE := rd1.1
  let rd2 := readRegister rd1.2 DS3231_TMP_LOW_REG
  let tLRBYTE := rd2.1
  if tUBYTE &&& 0b10000000 ≠ 0 then
    let tUBYTE := tUBYTE ^^^ 0b11111111
    let tUBYTE := (tUBYTE + 0x1) % 256
    let fTemperatureCelsius : ℚ := (tUBYTE : ℚ) + ((tLRBYTE >>> 6 : Nat) : ℚ) * (1 / 4)
    (fTemperatureCelsius * (-1), rd2.2)
  else
    ((tUBYTE : ℚ) + ((tLRBYTE >>> 6 : Nat) : ℚ) * (1 / 4), rd2.2)

/-- An 8-bit byte read as a two's-complement integer, `-128..127`. -/
def int8Of (u : Nat) : Int := if u % 256 < 128 then (u % 256 : Nat) else ((u % 256 : Nat) : Int) - 256

/-- The temperature of the chip's reading in degrees: the whole byte `u` as a
two's-complement integer plus a quarter of the 2-bit fraction in the top bits
of `l`. -/
def temperatureOf (u l : Nat) : ℚ := (int8Of u : ℚ) + (((l % 256) >>> 6 : Nat) : ℚ) / 4

/-- The weekday of day number `n` counted from 2000-01-01, a Saturday
(1 = Sunday .. 7 = Saturday). -/
def weekdayOfDay (n : Nat) : Nat := (n + 6) % 7 + 1

/-- The reference pattern that `enableInterruptsCheckAlm1` selects for a valid
periodicity. -/
def alm1RefOf (periodicity : Nat) : List Nat :=
  if periodicity = EverySecond then alm1Ref_1second_pm
  else if periodicity = EveryMinute then alm1Ref_1minute_pm
  else alm1Ref_1hour_pm

/-! ## Lemmas: integer conversions and the two loops of the constructor -/

/-- A value within the `int16_t` range is unchanged by the conversion. -/
theorem toI16_id (x : Int) (h0 : -32768 ≤ x) (h1 : x ≤ 32767) : toI16 x = x := by
  unfold toI16; omega

/-- A year adds 365 days, or 366 when its offset is a multiple of 4. -/
theorem daysBeforeYear_succ (y : Nat) :
    daysBeforeYear (y + 1) = daysBeforeYear y + 365 + (if y % 4 = 0 then 1 else 0) := by
  unfold daysBeforeYear
  split <;> omega

/-- Invariant of the year loop: with enough iterations left it returns, the remaining
days are a day of the returned year, and no day is lost. -/
theorem yearLoop_spec : ∀ (fuel yOff : Nat) (days : Int),
    0 ≤ days → days ≤ 32767 → days < 365 * (fuel : Int) → yOff + fuel ≤ 256 →
    ∃ (y : Nat) (r : Int), yearLoop fuel yOff days = some (y, r, if y % 4 = 0 then 1 else 0) ∧
      yOff ≤ y ∧ y < yOff + fuel ∧ 0 ≤ r ∧ r < 365 + (if y % 4 = 0 then (1 : Int) else 0) ∧
      days + (daysBeforeYear yOff : Int) = (daysBeforeYear y : Int) + r := by
  intro fuel
  induction fuel with
  | zero => intro yOff days h0 _ h2 _; omega
  | succ n ih =>
    intro yOff days h0 h1 h2 h3
    rw [yearLoop]
    by_cases hy4 : yOff % 4 = 0
    · simp only [hy4, if_true]
      by_cases hlt : days < 365 + ((1 : Nat) : Int)
      · rw [if_pos hlt]
        exact ⟨yOff, days, by simp [hy4], le_refl _, by omega, h0, by simp [hy4]; omega, add_comm _ _⟩
      · rw [if_neg hlt]
        have e1 : (yOff + 1) % 256 = yOff + 1 := by omega
        have e2 : toI16 (days - (365 + ((1 : Nat) : Int))) = days - 366 := by
          rw [toI16_id _ (by omega) (by omega)]; omega
        rw [e1, e2]
        obtain ⟨y, r, hr, hy, hyf, hr0, hr1, hsum⟩ :=
          ih (yOff + 1) (days - 366) (by omega) (by omega) (by omega) (by omega)
        refine ⟨y, r, hr, by omega, by omega, hr0, hr1, ?_⟩
        have := daysBeforeYear_succ yOff
        simp only [hy4, if_true] at this
        omega
    · simp only [hy4, if_false]
      by_cases hlt : days < 365 + ((0 : Nat) : Int)
      · rw [if_pos hlt]
        exact ⟨yOff, days, by simp [hy4], le_refl _, by omega, h0, by simp [hy4]; omega, add_comm _ _⟩
      · rw [if_neg hlt]
        have e1 : (yOff + 1) % 256 = yOff + 1 := by omega
        have e2 : toI16 (days - (365 + ((0 : Nat) : Int))) = days - 365 := by
          rw [toI16_id _ (by omega) (by omega)]; omega
        rw [e1, e2]
        obtain ⟨y, r, hr, hy, hyf, hr0, hr1, hsum⟩ :=
          ih (yOff + 1) (days - 365) (by omega) (by omega) (by omega) (by omega)
        refine ⟨y, r, hr, by omega, by omega, hr0, hr1, ?_⟩
        have := daysBeforeYear_succ yOff
        simp only [hy4, if_false] at this
        omega

/-- A month adds its length to the days before it. -/
theorem daysBeforeMonth_succ (b : Bool) (m : Nat) (h1 : 1 ≤ m) (h2 : m ≤ 12) :
    daysBeforeMonth b (m + 1) = daysBeforeMonth b m + monthLength b m := by
  interval_cases m <;> cases b <;> decide

/-- The twelve months add up to the length of the year. -/
theorem daysBeforeMonth_13 (b : Bool) : daysBeforeMonth b 13 = 365 + (if b then 1 else 0) := by
  cases b <;> decide

/-- No month is longer than 31 days. -/
theorem monthLength_le (b : Bool) (m : Nat) : monthLength b m ≤ 31 := by
  unfold monthLength
  split_ifs <;> omega

/-- One iteration of the month loop for a month inside the table. -/
theorem monthLoop_step (b : Bool) (fuel m : Nat) (days : Int) (h1 : 1 ≤ m) (h2 : m ≤ 12)
    (hd0 : 0 ≤ days) (hd1 : days ≤ 32767) :
    monthLoop (fuel + 1) m days (if b then 1 else 0) =
      if days < (monthLength b m : Int) then some (m, days)
      else monthLoop fuel (m + 1) (days - (monthLength b m : Int)) (if b then 1 else 0) := by
  have key : ∀ k : Int, 0 ≤ k → k ≤ 31 → toI16 (days - k) = days - k :=
    fun k k0 k1 => toI16_id _ (by omega) (by omega)
  interval_cases m <;> cases b <;>
    simp [monthLoop, readDaysInMonth, daysInMonth, monthLength, key]

/-- Invariant of the month loop: entered with a day of the year it returns a month in
1..12 and a day offset inside that month, without reading outside the table. -/
theorem monthLoop_spec (b : Bool) : ∀ (fuel m : Nat) (days : Int),
    1 ≤ m → m + fuel = 14 → 0 ≤ days → days ≤ 32767 →
    days + (daysBeforeMonth b m : Int) < 365 + (if b then 1 else 0) →
    ∃ (k : Nat) (r : Int), monthLoop fuel m days (if b then 1 else 0) = some (k, r) ∧
      m ≤ k ∧ k ≤ 12 ∧ 0 ≤ r ∧ r < (monthLength b k : Int) ∧
      days + (daysBeforeMonth b m : Int) = (daysBeforeMonth b k : Int) + r := by
  intro fuel
  induction fuel with
  | zero =>
    intro m days _ hm h0 _ h
    have : m = 14 := by omega
    subst this
    exfalso
    revert h
    cases b <;> simp [daysBeforeMonth, monthLength, daysInMonth, List.range_succ] <;> omega
  | succ n ih =>
    intro m days h1 hm h0 h32 h
    by_cases h13 : m = 13
    · subst h13
      exfalso
      rw [daysBeforeMonth_13] at h
      cases b <;> simp at h <;> omega
    · have h12 : m ≤ 12 := by omega
      rw [monthLoop_step b n m days h1 h12 h0 h32]
      by_cases hlt : days < (monthLength b m : Int)
      · rw [if_pos hlt]
        exact ⟨m, days, rfl, le_refl _, h12, h0, hlt, add_comm _ _⟩
      · rw [if_neg hlt]
        have hs := daysBeforeMonth_succ b m h1 h12
        obtain ⟨k, r, hr, hk1, hk2, hr0, hr1, hsum⟩ :=
          ih (m + 1) (days - (monthLength b m : Int)) (by omega) (by omega) (by omega)
            (by omega) (by rw [hs]; push_cast; omega)
        refine ⟨k, r, hr, by omega, hk2, hr0, hr1, ?_⟩
        rw [hs] at hsum; push_cast at hsum; omega

/-- Truncating division agrees with `/` on non-negative operands. -/
theorem tdiv_nonneg_eq (a b : Int) (ha : 0 ≤ a) (hb : 0 ≤ b) : Int.tdiv a b = a / b :=
  Int.tdiv_eq_ediv ha hb

/-- Truncating remainder agrees with `%` on non-negative operands. -/
theorem tmod_nonneg_eq (a b : Int) (ha : 0 ≤ a) (hb : 0 ≤ b) : Int.tmod a b = a % b :=
  Int.tmod_eq_emod ha hb

/-- The weekday function returns a value in 1..7 for a month in 1..12 and any day byte. -/
theorem DayOfWeek_in_range (y : Int) (m d : Nat) (hy : 1752 < y) (hy2 : y ≤ 9999) (hm : 1 ≤ m)
    (hm2 : m ≤ 12) (hd2 : d ≤ 255) :
    ∃ w, DayOfWeek y m d = some w ∧ 1 ≤ w ∧ w ≤ 7 := by
  interval_cases m <;>
    simp [DayOfWeek, dowTable, DayOfWeek_sum, toU8] <;>
    (rw [tdiv_nonneg_eq _ _ (by omega) (by omega), tdiv_nonneg_eq _ _ (by omega) (by omega),
         tdiv_nonneg_eq _ _ (by omega) (by omega), tmod_nonneg_eq _ _ (by omega) (by omega)]
     omega)

/-- The `leap` byte of the year loop is the leap flag of the year offset. -/
theorem leapFlag_eq (y : Nat) :
    (if y % 4 = 0 then 1 else 0 : Nat) = (if isLeap y then 1 else 0) := by
  unfold isLeap; by_cases h : y % 4 = 0 <;> simp [h]

/-- The `for` loop of `date2days` adds the lengths of the months before `m`. -/
theorem date2days_loop_spec (m d : Nat) (h1 : 1 ≤ m) (h2 : m ≤ 12) (hd : d ≤ 255) :
    date2days_loop (m - 1) 1 d = some (d + daysBeforeMonth false m) := by
  interval_cases m <;>
    simp [date2days_loop, readDaysInMonth, daysInMonth, daysBeforeMonth, monthLength,
      List.range_succ] <;> omega

/-- A leap year shifts the months after February by one day. -/
theorem daysBeforeMonth_leap (m : Nat) (h1 : 1 ≤ m) (h2 : m ≤ 12) :
    daysBeforeMonth true m = daysBeforeMonth false m + (if m > 2 then 1 else 0) ∧
      daysBeforeMonth false m ≤ 334 := by
  interval_cases m <;> decide

/-- The value of `date2days` for a month in 1..12. -/
theorem date2days_spec (y m d : Nat) (hy : y < 2000) (h1 : 1 ≤ m) (h2 : m ≤ 12) (hd : d ≤ 255) :
    date2days y m d =
      some (toU16 ((d : Int) + (daysBeforeMonth (isLeap y) m : Int) + (daysBeforeYear y : Int) - 1)) := by
  have hy2 : ¬ y ≥ 2000 := by omega
  obtain ⟨hl, hb⟩ := daysBeforeMonth_leap m h1 h2
  unfold date2days
  rw [date2days_loop_spec m d h1 h2 hd]
  simp only [hy2, if_false]
  congr 2
  unfold daysBeforeYear isLeap
  by_cases h4 : y % 4 = 0 <;> by_cases hm : m > 2 <;>
    simp [h4, hm, hl] <;> omega

/-- The constructor from a count `0 ≤ t < 2^31`: it returns, and the fields are the
calendar decomposition of `t`. -/
theorem ofLong_decompose (t : Int) (h0 : 0 ≤ t) (h1 : t < 2147483648) :
    ∃ dt, DateTime.ofLong t = some dt ∧
      (dt.ss : Int) = t % 60 ∧ (dt.mm : Int) = t / 60 % 60 ∧ (dt.hh : Int) = t / 3600 % 24 ∧
      dt.yOff ≤ 68 ∧ 1 ≤ dt.m ∧ dt.m ≤ 12 ∧ 1 ≤ dt.d ∧
      dt.d ≤ monthLength (isLeap dt.yOff) dt.m ∧
      t / 86400 + 1 = (daysBeforeYear dt.yOff : Int) + (daysBeforeMonth (isLeap dt.yOff) dt.m : Int)
        + (dt.d : Int) ∧
      DayOfWeek ((dt.yOff : Int) + 2000) dt.m dt.d = some dt.wday ∧
      1 ≤ dt.wday ∧ dt.wday ≤ 7 := by
  have e1 : Int.tdiv t 60 = t / 60 := tdiv_nonneg_eq _ _ h0 (by omega)
  have e2 : Int.tdiv (t / 60) 60 = t / 3600 := by
    rw [tdiv_nonneg_eq _ _ (by omega) (by omega)]; omega
  have e3 : Int.tdiv (t / 3600) 24 = t / 86400 := by
    rw [tdiv_nonneg_eq _ _ (by omega) (by omega)]; omega
  have e4 : Int.tmod t 60 = t % 60 := tmod_nonneg_eq _ _ h0 (by omega)
  have e5 : Int.tmod (t / 60) 60 = t / 60 % 60 := tmod_nonneg_eq _ _ (by omega) (by omega)
  have e6 : Int.tmod (t / 3600) 24 = t / 3600 % 24 := tmod_nonneg_eq _ _ (by omega) (by omega)
  have e7 : toI16 (t / 86400) = t / 86400 := toI16_id _ (by omega) (by omega)
  obtain ⟨y, r, hyl, -, hy90, hr0, hr1, hsum⟩ :=
    yearLoop_spec yearFuel 0 (t / 86400) (by omega) (by omega) (by unfold yearFuel; omega)
      (by unfold yearFuel; omega)
  rw [leapFlag_eq] at hyl
  have hr1b : r < 365 + (if isLeap y then (1 : Int) else 0) := by
    unfold isLeap; by_cases h : y % 4 = 0 <;> simp [h] at hr1 ⊢ <;> omega
  have hdb1 : daysBeforeMonth (isLeap y) 1 = 0 := by cases isLeap y <;> decide
  have hy68 : y ≤ 68 := by
    unfold daysBeforeYear at hsum; push_cast at hsum; omega
  obtain ⟨k, r2, hml, hk1, hk12, hr20, hr21, hsum2⟩ :=
    monthLoop_spec (isLeap y) monthFuel 1 r (le_refl _) (by unfold monthFuel; omega) hr0
      (by split at hr1b <;> omega)
      (by rw [hdb1]; simpa using hr1b)
  have hml31 := monthLength_le (isLeap y) k
  have hd : ((toU8 (r2 + 1) : Nat) : Int) = r2 + 1 := by unfold toU8; omega
  obtain ⟨w, hw, hw1, hw7⟩ :=
    DayOfWeek_in_range ((y : Int) + 2000) k (toU8 (r2 + 1)) (by omega) (by omega) hk1 hk12
      (by omega)
  refine ⟨⟨y, k, toU8 (r2 + 1), toU8 (t / 3600 % 24), toU8 (t / 60 % 60), toU8 (t % 60), w⟩,
    ?_, ?_, ?_, ?_, hy68, hk1, hk12, ?_, ?_, ?_, hw, hw1, hw7⟩
  · simp only [DateTime.ofLong, e1, e2, e3, e4, e5, e6, e7, hyl, hml, hw]
  · show ((toU8 (t % 60) : Nat) : Int) = t % 60
    unfold toU8; omega
  · show ((toU8 (t / 60 % 60) : Nat) : Int) = t / 60 % 60
    unfold toU8; omega
  · show ((toU8 (t / 3600 % 24) : Nat) : Int) = t / 3600 % 24
    unfold toU8; omega
  · show 1 ≤ toU8 (r2 + 1)
    omega
  · show toU8 (r2 + 1) ≤ monthLength (isLeap y) k
    omega
  · show t / 86400 + 1 = (daysBeforeYear y : Int) + (daysBeforeMonth (isLeap y) k : Int)
        + ((toU8 (r2 + 1) : Nat) : Int)
    rw [hdb1] at hsum2
    have : (daysBeforeYear 0 : Int) = 0 := by decide
    rw [this] at hsum
    push_cast at hsum2
    omega

/-! ## Lemmas: the day count and its inverse -/

/-- A value within the `long` range is unchanged by the conversion. -/
theorem toLong_id (x : Int) (h0 : -2147483648 ≤ x) (h1 : x < 2147483648) : toLong x = x := by
  unfold toLong; omega

/-- For `0 ≤ t < 2^31`, `get()` of `DateTime(t)` is `t`. -/
theorem ofLong_get (t : Int) (h0 : 0 ≤ t) (h1 : t < 2147483648) :
    ∃ dt, DateTime.ofLong t = some dt ∧ dt.get = some t.toNat := by
  obtain ⟨dt, hdt, hss, hmm, hhh, hy, hm1, hm12, hd1, hd2, hsum, -, -, -⟩ :=
    ofLong_decompose t h0 h1
  refine ⟨dt, hdt, ?_⟩
  have hml := monthLength_le (isLeap dt.yOff) dt.m
  have hq0 : 0 ≤ t / 86400 := by omega
  have hq1 : t / 86400 ≤ 24855 := by omega
  have hcomb : ((t / 86400 * 24 + t / 3600 % 24) * 60 + t / 60 % 60) * 60 + t % 60 = t := by
    omega
  unfold DateTime.get
  rw [date2days_spec dt.yOff dt.m dt.d (by omega) hm1 hm12 (by omega)]
  simp only [time2long]
  congr 1
  have hu : ((toU16 ((dt.d : Int) + (daysBeforeMonth (isLeap dt.yOff) dt.m : Int)
      + (daysBeforeYear dt.yOff : Int) - 1) : Nat) : Int) = t / 86400 := by
    have e : (dt.d : Int) + (daysBeforeMonth (isLeap dt.yOff) dt.m : Int)
      + (daysBeforeYear dt.yOff : Int) - 1 = t / 86400 := by omega
    rw [e]
    unfold toU16
    omega
  rw [hu, hss, hmm, hhh, hcomb]
  unfold toU32
  omega

/-- The days before a month grow with the month. -/
theorem daysBeforeMonth_mono (b : Bool) (m k : Nat) (h1 : 1 ≤ m) (h2 : m ≤ k) (h3 : k ≤ 13) :
    daysBeforeMonth b m ≤ daysBeforeMonth b k := by
  interval_cases k <;> interval_cases m <;> cases b <;> decide

/-- A valid day of a month is a day of the year. -/
theorem dayOfYear_lt (b : Bool) (m d : Nat) (h1 : 1 ≤ m) (h2 : m ≤ 12)
    (hd : d ≤ monthLength b m) :
    daysBeforeMonth b m + d ≤ 365 + (if b then 1 else 0) := by
  have := daysBeforeMonth_succ b m h1 h2
  have := daysBeforeMonth_mono b (m + 1) 13 (by omega) (by omega) (le_refl _)
  rw [daysBeforeMonth_13] at this
  omega

/-- Within one year, a day of the year determines month and day. -/
theorem month_unique (b : Bool) (m k d e : Nat) (hm1 : 1 ≤ m) (hm2 : m ≤ 12) (hk1 : 1 ≤ k)
    (hk2 : k ≤ 12) (hd1 : 1 ≤ d) (hd2 : d ≤ monthLength b m) (he1 : 1 ≤ e)
    (he2 : e ≤ monthLength b k)
    (h : daysBeforeMonth b m + d = daysBeforeMonth b k + e) : m = k ∧ d = e := by
  rcases Nat.lt_trichotomy m k with hlt | heq | hgt
  · exfalso
    have := daysBeforeMonth_succ b m hm1 hm2
    have := daysBeforeMonth_mono b (m + 1) k (by omega) (by omega) (by omega)
    omega
  · subst heq
    exact ⟨rfl, by omega⟩
  · exfalso
    have := daysBeforeMonth_succ b k hk1 hk2
    have := daysBeforeMonth_mono b (k + 1) m (by omega) (by omega) (by omega)
    omega

/-- A day count determines year offset, month and day. -/
theorem calendar_unique (y z m k d e : Nat) (hm1 : 1 ≤ m) (hm2 : m ≤ 12) (hk1 : 1 ≤ k)
    (hk2 : k ≤ 12) (hd1 : 1 ≤ d) (hd2 : d ≤ monthLength (isLeap y) m) (he1 : 1 ≤ e)
    (he2 : e ≤ monthLength (isLeap z) k)
    (h : daysBeforeYear y + daysBeforeMonth (isLeap y) m + d =
         daysBeforeYear z + daysBeforeMonth (isLeap z) k + e) : y = z ∧ m = k ∧ d = e := by
  have b1 := dayOfYear_lt (isLeap y) m d hm1 hm2 hd2
  have b2 := dayOfYear_lt (isLeap z) k e hk1 hk2 he2
  rw [← leapFlag_eq] at b1 b2
  have hyz : y = z := by
    unfold daysBeforeYear at h
    split at b1 <;> split at b2 <;> omega
  subst hyz
  exact ⟨rfl, month_unique (isLeap y) m k d e hm1 hm2 hk1 hk2 hd1 hd2 he1 he2 (by omega)⟩

/-- Subtracting 2000 does not change the leap flag. -/
theorem isLeap_sub (year : Nat) (hy0 : 2000 ≤ year) :
    isLeap (year - 2000) = decide (year % 4 = 0) := by
  unfold isLeap
  have : (year - 2000) % 4 = 0 ↔ year % 4 = 0 := by omega
  simp [this]

/-- The value of `get()` on a valid tuple built from its fields. -/
theorem ofFields_get (year month date hour min sec wd : Nat)
    (hy0 : 2000 ≤ year) (hy1 : year ≤ 2099) (hm0 : 1 ≤ month) (hm1 : month ≤ 12)
    (hd0 : 1 ≤ date) (hd1 : date ≤ monthLength (isLeap (year - 2000)) month)
    (hh : hour < 24) (hmi : min < 60) (hs : sec < 60) :
    (DateTime.ofFields year month date hour min sec wd).get =
      some (((((daysBeforeYear (year - 2000) + daysBeforeMonth (isLeap (year - 2000)) month
        + date - 1) * 24 + hour) * 60 + min) * 60) + sec) := by
  have hml := monthLength_le (isLeap (year - 2000)) month
  have hdoy := dayOfYear_lt (isLeap (year - 2000)) month date hm0 hm1 hd1
  have hif : (if isLeap (year - 2000) then 1 else 0 : Nat) ≤ 1 := by split <;> omega
  have hyb : daysBeforeYear (year - 2000) ≤ 36160 := by unfold daysBeforeYear; omega
  have hoff : (year - 2000) % 256 = year - 2000 := by omega
  have hof : DateTime.ofFields year month date hour min sec wd =
      ⟨year - 2000, month, date, hour, min, sec, wd⟩ := by
    unfold DateTime.ofFields
    simp only [ge_iff_le, hy0, if_true, hoff]
  have hlt : year - 2000 < 2000 := by omega
  have hd255 : date ≤ 255 := by omega
  have hdd := date2days_spec (year - 2000) month date hlt hm0 hm1 hd255
  rw [hof]
  simp only [DateTime.get, hdd, time2long]
  refine congrArg some ?_
  have hu : ((toU16 ((date : Int) + (daysBeforeMonth (isLeap (year - 2000)) month : Int)
      + (daysBeforeYear (year - 2000) : Int) - 1) : Nat) : Int)
      = ((daysBeforeYear (year - 2000) + daysBeforeMonth (isLeap (year - 2000)) month
          + date - 1 : Nat) : Int) := by
    unfold toU16
    omega
  rw [hu]
  unfold toU32
  have hn : daysBeforeYear (year - 2000) + daysBeforeMonth (isLeap (year - 2000)) month
    + date - 1 ≤ 36525 := by omega
  generalize daysBeforeYear (year - 2000) + daysBeforeMonth (isLeap (year - 2000)) month
    + date - 1 = n at *
  omega

/-- A timestamp below the offset gives the calendar value of count 0. -/
theorem makeDateTime_before_epoch (ts : Nat) (h : ts < 946684800) :
    makeDateTime ts = some ⟨0, 1, 1, 0, 0, 0, 7⟩ := by
  unfold makeDateTime
  rw [if_pos (by unfold EPOCH_TIME_OFF; omega)]
  decide

/-! ## Lemmas: text fields and rendering -/

/-- The function `conv2d` on a two-character field. -/
theorem conv2d_field (p : List Char) (i : Nat) (c0 c1 : Char) (h0 : p[i]? = some c0)
    (h1 : p[i + 1]? = some c1) (hc0 : c0 = ' ' ∨ isDigit c0) (hc1 : isDigit c1) :
    conv2d p i = some (field2 c0 c1) := by
  unfold conv2d
  rw [h0, h1]
  simp only []
  refine congrArg some ?_
  unfold isDigit at hc0 hc1
  unfold field2 digitVal
  rcases hc0 with rfl | hd
  · have : (' ' : Char).toNat = 32 := by decide
    simp only [this, if_true]
    rw [if_neg (by omega)]
    unfold toU8
    omega
  · have hne : c0 ≠ ' ' := by
      intro h
      rw [h] at hd
      revert hd
      decide
    rw [if_pos hd, if_neg hne]
    unfold toU8
    omega

/-- A two-character field is at most 99. -/
theorem field2_le (c0 c1 : Char) (hc0 : c0 = ' ' ∨ isDigit c0) (hc1 : isDigit c1) :
    field2 c0 c1 ≤ 99 := by
  unfold isDigit at hc0 hc1
  unfold field2 digitVal
  rcases hc0 with rfl | hd
  · rw [if_pos rfl]
    omega
  · split <;> omega

/-- The text constructor, given the month the `switch` selects. -/
theorem ofText_of_month (m0 m1 m2 c1 c2 y1 y2 h1 h2 n1 n2 s1 s2 : Char) (k : Nat)
    (hk : monthOfText [m0, m1, m2, ' ', c1, c2, ' ', '2', '0', y1, y2] = some k)
    (hk1 : 1 ≤ k) (hk2 : k ≤ 12)
    (hc1 : c1 = ' ' ∨ isDigit c1) (hc2 : isDigit c2) (hy1 : isDigit y1) (hy2 : isDigit y2)
    (hh1 : isDigit h1) (hh2 : isDigit h2) (hn1 : isDigit n1) (hn2 : isDigit n2)
    (hs1 : isDigit s1) (hs2 : isDigit s2) :
    ∃ dt, DateTime.ofText [m0, m1, m2, ' ', c1, c2, ' ', '2', '0', y1, y2]
          [h1, h2, ':', n1, n2, ':', s1, s2] = some dt ∧
      dt.month = k ∧ dt.date = field2 c1 c2 ∧ dt.year = 2000 + field2 y1 y2 ∧
      dt.hour = field2 h1 h2 ∧ dt.minute = field2 n1 n2 ∧ dt.second = field2 s1 s2 ∧
      DayOfWeek (2000 + (field2 y1 y2 : Int)) k (field2 c1 c2) = some dt.dayOfWeek := by
  have by1 := field2_le y1 y2 (Or.inr hy1) hy2
  have bd := field2_le c1 c2 hc1 hc2
  obtain ⟨w, hw, -, -⟩ := DayOfWeek_in_range ((field2 y1 y2 : Int) + 2000) k
    (field2 c1 c2) (by omega) (by omega) hk1 hk2 (by omega)
  have ht0 := conv2d_field [h1, h2, ':', n1, n2, ':', s1, s2] 0 h1 h2 rfl rfl (Or.inr hh1) hh2
  have ht3 := conv2d_field [h1, h2, ':', n1, n2, ':', s1, s2] 3 n1 n2 rfl rfl (Or.inr hn1) hn2
  have ht6 := conv2d_field [h1, h2, ':', n1, n2, ':', s1, s2] 6 s1 s2 rfl rfl (Or.inr hs1) hs2
  have hd9 := conv2d_field [m0, m1, m2, ' ', c1, c2, ' ', '2', '0', y1, y2] 9 y1 y2 rfl rfl
    (Or.inr hy1) hy2
  have hd4 := conv2d_field [m0, m1, m2, ' ', c1, c2, ' ', '2', '0', y1, y2] 4 c1 c2 rfl rfl
    hc1 hc2
  refine ⟨⟨field2 y1 y2, k, field2 c1 c2, field2 h1 h2, field2 n1 n2, field2 s1 s2, w⟩,
    ?_, rfl, rfl, ?_, rfl, rfl, rfl, by rw [add_comm]; exact hw⟩
  · simp only [DateTime.ofText, hd9, hd4, ht0, ht3, ht6, hk, hw]
  · show (2000 + field2 y1 y2) % 65536 = 2000 + field2 y1 y2
    omega

/-- Two decimal digits of a value below 100, zero-padded. -/
theorem digits2 (v : Nat) (h : v < 100) :
    (if v < 10 then ['0'] else []) ++ Nat.toDigits 10 v = [digitChar (v / 10), digitChar (v % 10)] := by
  revert v
  decide

/-- The four decimal digits of a value in 2000..2099. -/
theorem digits4 (y : Nat) (h : y ≤ 99) :
    Nat.toDigits 10 (2000 + y) =
      [digitChar 2, digitChar 0, digitChar (y / 10), digitChar (y % 10)] := by
  revert y
  decide

/-- The function `add02d` on a value below 100. -/
theorem add02d_eq (str : List Char) (v : Nat) (h : v < 100) :
    add02d str v = str ++ [digitChar (v / 10), digitChar (v % 10)] := by
  rw [← digits2 v h]
  unfold add02d add0Nd appendNum
  by_cases h10 : v < 10 <;> simp [h10]

/-- The function `add04d` on a value in 2000..2099. -/
theorem add04d_eq (str : List Char) (y : Nat) (h : y ≤ 99) :
    add04d str (2000 + y) =
      str ++ [digitChar 2, digitChar 0, digitChar (y / 10), digitChar (y % 10)] := by
  rw [← digits4 y h]
  unfold add04d add0Nd appendNum
  have h1 : ¬ (2000 + y < 100) := by omega
  have h2 : ¬ (2000 + y < 10) := by omega
  simp [h1, h2]

/-! ## Lemmas: register access and BCD bytes -/

/-- A register write changes the addressed register only. -/
theorem writeRegister_apply (r : Regs) (a v x : Nat) :
    writeRegister r a v x = if x = a then v else r x := rfl

/-- A register read returns the addressed byte and leaves the register file as it
is. -/
theorem readRegister_eq (r : Regs) (a : Nat) : readRegister r a = (r a % 256, r) := rfl

/-- The eight bytes delivered from address `0x00`. -/
theorem readSeq_time (r : Regs) :
    Regs.readSeq r 0x00 8 =
      [r 0 % 256, r 1 % 256, r 2 % 256, r 3 % 256, r 4 % 256, r 5 % 256, r 6 % 256,
       r 7 % 256] := rfl

/-- The function `bin2bcd` on a value below 100 is the BCD byte; it is below 256
and `bcd2bin` decodes it. -/
theorem bin2bcd_eq_bcdOf (n : Nat) (h : n < 100) :
    bin2bcd n = bcdOf n ∧ bcdOf n < 256 ∧ bcd2bin (bcdOf n) = n := by
  revert n
  decide

/-- The BCD byte of a value below 60 has bit 7 clear, also after setting the
always-match bit. -/
theorem bcdOf_lt60 (n : Nat) (h : n < 60) :
    bcdOf n < 128 ∧ Nat.testBit (bcdOf n) 7 = false ∧
      bin2bcd n ||| 0b10000000 = bcdOf n + 128 ∧
      Nat.testBit (bcdOf n + 128) 7 = true := by
  revert n
  decide

/-- The BCD byte of an hour below 24: masks `0xBF` and `0x3F` leave it as it is,
bit 6 is clear. -/
theorem bcdOf_hour (n : Nat) (h : n < 24) :
    bin2bcd (n &&& 0b10111111) = bcdOf n ∧ bin2bcd n &&& 0b10111111 = bcdOf n ∧
      bcdOf n &&& 0b00111111 = bcdOf n ∧ Nat.testBit (bcdOf n) 6 = false ∧
      bcdOf n < 64 := by
  revert n
  decide

/-- Clearing bit 6 of a byte: bit 6 is clear, the other seven bits are kept. -/
theorem land_BF (x : Nat) :
    Nat.testBit ((x % 256) &&& 0b10111111) 6 = false ∧
      (∀ i, i < 8 → i ≠ 6 → Nat.testBit ((x % 256) &&& 0b10111111) i = Nat.testBit x i) ∧
      (x % 256) &&& 0b10111111 < 256 := by
  have hx : x % 256 < 256 := Nat.mod_lt _ (by decide)
  have hb : ∀ i, i < 8 → i ≠ 6 → Nat.testBit 0b10111111 i = true := by decide
  have h6 : Nat.testBit 0b10111111 6 = false := by decide
  refine ⟨?_, ?_, lt_of_le_of_lt Nat.and_le_left hx⟩
  · rw [Nat.testBit_land, h6, Bool.and_false]
  · intro i hi hne
    have h256 : (256 : Nat) = 2 ^ 8 := by norm_num
    rw [Nat.testBit_land, hb i hi hne, h256, Nat.testBit_mod_two_pow]
    simp [hi]

/-- Clearing bit 0 of a byte: bit 0 is clear, the other seven bits are kept, and
clearing again changes nothing. -/
theorem land_FE (x : Nat) :
    Nat.testBit ((x % 256) &&& 0b11111110) 0 = false ∧
      (∀ i, 1 ≤ i → i < 8 → Nat.testBit ((x % 256) &&& 0b11111110) i = Nat.testBit x i) ∧
      (x % 256) &&& 0b11111110 < 256 ∧
      ((((x % 256) &&& 0b11111110) % 256) &&& 0b11111110 = (x % 256) &&& 0b11111110) := by
  have hx : x % 256 < 256 := Nat.mod_lt _ (by decide)
  have hb : ∀ i, 1 ≤ i → i < 8 → Nat.testBit 0b11111110 i = true := by decide
  have hlt : (x % 256) &&& 0b11111110 < 256 := lt_of_le_of_lt Nat.and_le_left hx
  have h0 : Nat.testBit 0b11111110 0 = false := by decide
  refine ⟨?_, ?_, hlt, ?_⟩
  · rw [Nat.testBit_land, h0, Bool.and_false]
  · intro i h1 hi
    have h256 : (256 : Nat) = 2 ^ 8 := by norm_num
    rw [Nat.testBit_land, hb i h1 hi, h256, Nat.testBit_mod_two_pow]
    simp [hi]
  · rw [Nat.mod_eq_of_lt hlt, Nat.land_assoc]
    rfl

/-- The bytes `setDateTime` sends for a calendar value with valid time and date
fields. -/
theorem setDateTime_bytes_valid (dt : DateTime) (hs : dt.ss < 60) (hmi : dt.mm < 60)
    (hh : dt.hh < 24) (hd : dt.d ≤ 31) (hm : dt.m ≤ 12) (hy : dt.yOff ≤ 99) :
    setDateTime_bytes dt =
      [0x00, bcdOf dt.ss, bcdOf dt.mm, bcdOf dt.hh, dt.wday, bcdOf dt.d, bcdOf dt.m,
       bcdOf dt.yOff] := by
  have e1 := (bin2bcd_eq_bcdOf dt.ss (by omega)).1
  have e2 := (bin2bcd_eq_bcdOf dt.mm (by omega)).1
  have e3 := (bcdOf_hour dt.hh hh).1
  have e4 := (bin2bcd_eq_bcdOf dt.d (by omega)).1
  have e5 := (bin2bcd_eq_bcdOf dt.m (by omega)).1
  have e6 := (bin2bcd_eq_bcdOf dt.yOff (by omega)).1
  have e7 : toU8 (((DateTime.year dt : Nat) : Int) - 2000) = dt.yOff := by
    unfold DateTime.year toU8
    omega
  simp only [setDateTime_bytes, DateTime.second, DateTime.minute, DateTime.hour,
    DateTime.date, DateTime.month, DateTime.dayOfWeek, e1, e2, e3, e4, e5, e6, e7,
    DS3231_SEC_REG]

/-- The register file after a transmission of seven data bytes to address
`0x00`. -/
theorem transmit_time (r : Regs) (b0 b1 b2 b3 b4 b5 b6 : Nat) :
    Regs.transmit r [0x00, b0, b1, b2, b3, b4, b5, b6] 0 = b0 ∧
    Regs.transmit r [0x00, b0, b1, b2, b3, b4, b5, b6] 1 = b1 ∧
    Regs.transmit r [0x00, b0, b1, b2, b3, b4, b5, b6] 2 = b2 ∧
    Regs.transmit r [0x00, b0, b1, b2, b3, b4, b5, b6] 3 = b3 ∧
    Regs.transmit r [0x00, b0, b1, b2, b3, b4, b5, b6] 4 = b4 ∧
    Regs.transmit r [0x00, b0, b1, b2, b3, b4, b5, b6] 5 = b5 ∧
    Regs.transmit r [0x00, b0, b1, b2, b3, b4, b5, b6] 6 = b6 ∧
    ∀ a, 7 ≤ a → Regs.transmit r [0x00, b0, b1, b2, b3, b4, b5, b6] a = r a := by
  simp only [Regs.transmit, Regs.writeSeq, Regs.write]
  refine ⟨by simp, by simp, by simp, by simp, by simp, by simp, by simp, ?_⟩
  intro a ha
  have h0 : a ≠ 0 := by omega
  have h1 : a ≠ 1 := by omega
  have h2 : a ≠ 2 := by omega
  have h3 : a ≠ 3 := by omega
  have h4 : a ≠ 4 := by omega
  have h5 : a ≠ 5 := by omega
  have h6 : a ≠ 6 := by omega
  simp [h0, h1, h2, h3, h4, h5, h6]

/-- The register file after the control write and the four alarm-1 writes. -/
theorem alarm1_writes_apply (r : Regs) (p : Nat) (b0 b1 b2 b3 : Nat) (a : Nat) :
    writeRegister (writeRegister (writeRegister (writeRegister
      (writeRegister r DS3231_CONTROL_REG p) DS3231_AL1SEC_REG b0) DS3231_AL1MIN_REG b1)
      DS3231_AL1HOUR_REG b2) DS3231_AL1WDAY_REG b3 a =
      if a = 0x0A then b3 else if a = 0x09 then b2 else if a = 0x08 then b1
      else if a = 0x07 then b0 else if a = 0x0E then p else r a := by
  simp only [writeRegister_apply, DS3231_CONTROL_REG, DS3231_AL1SEC_REG, DS3231_AL1MIN_REG,
    DS3231_AL1HOUR_REG, DS3231_AL1WDAY_REG]

/-- The register file after the general alarm-1 programming, for any alarm
type. -/
theorem enableInterrupts_alarm_apply (r : Regs) (t d h m s a : Nat) :
    enableInterrupts_alarm r t d h m s a =
      if a = 0x0A then (if t &&& 0x08 ≠ 0 then bin2bcd d ||| 0b10000000 else bin2bcd d)
      else if a = 0x09 then
        (if t &&& 0x10 ≠ 0 then
          (if t &&& 0x04 ≠ 0 then bin2bcd h ||| 0b10000000 else bin2bcd h) ||| 0b01000000
         else (if t &&& 0x04 ≠ 0 then bin2bcd h ||| 0b10000000 else bin2bcd h))
      else if a = 0x08 then (if t &&& 0x02 ≠ 0 then bin2bcd m ||| 0b10000000 else bin2bcd m)
      else if a = 0x07 then (if t &&& 0x01 ≠ 0 then bin2bcd s ||| 0b10000000 else bin2bcd s)
      else if a = 0x0E then 0x1D else r a := by
  unfold enableInterrupts_alarm
  rw [alarm1_writes_apply]
  rfl

/-- The alarm bytes built from a value below 60: the low seven bits are the BCD
byte, bit 7 is the always-match bit. -/
theorem alarmByte_facts (n : Nat) (h : n < 60) :
    bin2bcd n % 128 = bcdOf n ∧ Nat.testBit (bin2bcd n) 7 = false ∧
      (bin2bcd n ||| 0b10000000) % 128 = bcdOf n ∧
      Nat.testBit (bin2bcd n ||| 0b10000000) 7 = true := by
  revert n
  decide

/-- A comparison contributes nothing or its bit. -/
theorem cmpBit_cases (d ref b : Nat) : cmpBit d ref b = 0 ∨ cmpBit d ref b = b := by
  unfold cmpBit
  split
  · exact Or.inr rfl
  · exact Or.inl rfl

/-- A comparison bit below 32 stays below 32. -/
theorem cmpBit_lt (d ref b : Nat) (hb : b < 2 ^ 5) : cmpBit d ref b < 2 ^ 5 := by
  rcases cmpBit_cases d ref b with h | h <;> rw [h]
  · decide
  · exact hb

/-- Five comparison bits below 32 combine to a byte below 32. -/
theorem or5_lt (a b c d e : Nat) (ha : a < 2 ^ 5) (hb : b < 2 ^ 5) (hc : c < 2 ^ 5)
    (hd : d < 2 ^ 5) (he : e < 2 ^ 5) : 0 ||| a ||| b ||| c ||| d ||| e < 2 ^ 5 :=
  Nat.or_lt_two_pow (Nat.or_lt_two_pow (Nat.or_lt_two_pow (Nat.or_lt_two_pow
    (Nat.or_lt_two_pow (by decide) ha) hb) hc) hd) he

/-- For a valid periodicity the alarm-1 check returns a byte below 32. -/
theorem checkAlm1_lt (r : Regs) (sz_read p : Nat)
    (hp : p = EverySecond ∨ p = EveryMinute ∨ p = EveryHour) :
    (enableInterruptsCheckAlm1 r sz_read p).1 < 2 ^ 5 := by
  have c := fun d ref b hb => cmpBit_lt d ref b hb
  rcases hp with h | h | h <;> rw [h] <;>
    simp only [enableInterruptsCheckAlm1, EverySecond, EveryMinute, EveryHour] <;>
    simp +decide only [if_true, if_false] <;>
    split <;> dsimp only
  all_goals first
    | exact or5_lt _ _ _ _ _ (c _ _ _ (by decide)) (c _ _ _ (by decide))
        (c _ _ _ (by decide)) (c _ _ _ (by decide)) (c _ _ _ (by decide))
    | exact Nat.or_lt_two_pow (by decide) (c _ _ _ (by decide))

/-- For a valid periodicity the alarm-2 check returns a byte below 32. -/
theorem checkAlm2_lt (r : Regs) (sz_read p : Nat) (hp : p = EveryMinute ∨ p = EveryHour) :
    (enableInterruptsCheckAlm2 r sz_read p).1 < 2 ^ 5 := by
  have c := fun d ref b hb => cmpBit_lt d ref b hb
  rcases hp with h | h <;> rw [h] <;>
    simp only [enableInterruptsCheckAlm2, EveryMinute, EveryHour] <;>
    simp +decide only [if_true, if_false] <;>
    split <;> dsimp only
  all_goals first
    | exact Nat.or_lt_two_pow (Nat.or_lt_two_pow (Nat.or_lt_two_pow (Nat.or_lt_two_pow
        (by decide) (c _ _ _ (by decide))) (c _ _ _ (by decide))) (c _ _ _ (by decide)))
        (c _ _ _ (by decide))
    | exact (by decide : (0 : Nat) < 2 ^ 5)

/-! ## Lemmas: alarm verification -/

/-- A comparison contributes its bit exactly when the two bytes differ. -/
theorem cmpBit_eq (d ref b : Nat) : cmpBit d ref b = if d ≠ ref then b else 0 := by
  unfold cmpBit
  by_cases h : d = ref
  · subst h
    simp
  · have : d ^^^ ref ≠ 0 := fun h0 => h (Nat.xor_eq_zero.mp h0)
    simp [h, this]

/-- Five flags ORed at bits 0..4: each bit of the byte is its flag, no higher bit
is set, and the byte is zero exactly when no flag is raised. -/
theorem or5_bits (p0 p1 p2 p3 p4 : Prop) [Decidable p0] [Decidable p1] [Decidable p2]
    [Decidable p3] [Decidable p4] :
    (Nat.testBit (0 ||| (if p0 then 0x01 else 0) ||| (if p1 then 0x02 else 0) |||
        (if p2 then 0x04 else 0) ||| (if p3 then 0x08 else 0) ||| (if p4 then 0x10 else 0)) 0
        = true ↔ p0) ∧
    (Nat.testBit (0 ||| (if p0 then 0x01 else 0) ||| (if p1 then 0x02 else 0) |||
        (if p2 then 0x04 else 0) ||| (if p3 then 0x08 else 0) ||| (if p4 then 0x10 else 0)) 1
        = true ↔ p1) ∧
    (Nat.testBit (0 ||| (if p0 then 0x01 else 0) ||| (if p1 then 0x02 else 0) |||
        (if p2 then 0x04 else 0) ||| (if p3 then 0x08 else 0) ||| (if p4 then 0x10 else 0)) 2
        = true ↔ p2) ∧
    (Nat.testBit (0 ||| (if p0 then 0x01 else 0) ||| (if p1 then 0x02 else 0) |||
        (if p2 then 0x04 else 0) ||| (if p3 then 0x08 else 0) ||| (if p4 then 0x10 else 0)) 3
        = true ↔ p3) ∧
    (Nat.testBit (0 ||| (if p0 then 0x01 else 0) ||| (if p1 then 0x02 else 0) |||
        (if p2 then 0x04 else 0) ||| (if p3 then 0x08 else 0) ||| (if p4 then 0x10 else 0)) 4
        = true ↔ p4) ∧
    (0 ||| (if p0 then 0x01 else 0) ||| (if p1 then 0x02 else 0) |||
        (if p2 then 0x04 else 0) ||| (if p3 then 0x08 else 0) ||| (if p4 then 0x10 else 0)
        < 2 ^ 5) ∧
    ((0 ||| (if p0 then 0x01 else 0) ||| (if p1 then 0x02 else 0) |||
        (if p2 then 0x04 else 0) ||| (if p3 then 0x08 else 0) ||| (if p4 then 0x10 else 0)) = 0
        ↔ ¬ p0 ∧ ¬ p1 ∧ ¬ p2 ∧ ¬ p3 ∧ ¬ p4) := by
  by_cases h0 : p0 <;> by_cases h1 : p1 <;> by_cases h2 : p2 <;> by_cases h3 : p3 <;>
    by_cases h4 : p4 <;> simp only [h0, h1, h2, h3, h4, if_true, if_false] <;> decide

/-- The byte the alarm-1 check returns for a valid periodicity when all four
bytes are delivered. -/
theorem checkAlm1_eq (r : Regs) (p : Nat)
    (hp : p = EverySecond ∨ p = EveryMinute ∨ p = EveryHour) :
    (enableInterruptsCheckAlm1 r 4 p).1 =
      0 ||| (if (r 0x0E % 256) &&& 0x05 ≠ 0x05 then 0x01 else 0) |||
        (if r 0x07 % 256 ≠ (alm1RefOf p).getD 0 0 then 0x02 else 0) |||
        (if r 0x08 % 256 ≠ (alm1RefOf p).getD 1 0 then 0x04 else 0) |||
        (if r 0x09 % 256 ≠ (alm1RefOf p).getD 2 0 then 0x08 else 0) |||
        (if r 0x0A % 256 ≠ (alm1RefOf p).getD 3 0 then 0x10 else 0) := by
  rcases hp with h | h | h <;> rw [h] <;>
    simp only [enableInterruptsCheckAlm1, alm1RefOf, EverySecond, EveryMinute, EveryHour] <;>
    simp +decide only [if_true, if_false] <;>
    simp only [DS3231_ALM1_SZ, if_true, cmpBit_eq, readRegister_eq] <;>
    rfl

/-- The register file after `enableInterruptsAlm2` for a valid periodicity: the
four table bytes are stored at `0x0B..0x0E`. -/
theorem enableInterruptsAlm2_apply (r : Regs) (a : Nat) :
    enableInterruptsAlm2 r EveryMinute a =
      (if a = 0x0E then 0x06 else if a = 0x0D then 0x80 else if a = 0x0C then 0x80
       else if a = 0x0B then 0x80 else r a) ∧
    enableInterruptsAlm2 r EveryHour a =
      (if a = 0x0E then 0x06 else if a = 0x0D then 0x80 else if a = 0x0C then 0x80
       else if a = 0x0B then 0x00 else r a) := by
  constructor <;> rfl

/-- The byte the alarm-2 check returns for a valid periodicity when all four
bytes are delivered. -/
theorem checkAlm2_eq (r : Regs) :
    (enableInterruptsCheckAlm2 r 4 EveryMinute).1 =
      0 ||| (if r 0x0B % 256 ≠ 0x80 then 0x04 else 0) |||
        (if r 0x0C % 256 ≠ 0x80 then 0x08 else 0) |||
        (if r 0x0D % 256 ≠ 0x80 then 0x10 else 0) |||
        (if r 0x0E % 256 ≠ 0x06 then 0x01 else 0) ∧
    (enableInterruptsCheckAlm2 r 4 EveryHour).1 =
      0 ||| (if r 0x0B % 256 ≠ 0x00 then 0x04 else 0) |||
        (if r 0x0C % 256 ≠ 0x80 then 0x08 else 0) |||
        (if r 0x0D % 256 ≠ 0x80 then 0x10 else 0) |||
        (if r 0x0E % 256 ≠ 0x06 then 0x01 else 0) := by
  constructor <;>
    simp only [enableInterruptsCheckAlm2, EveryMinute, EveryHour] <;>
    simp +decide only [if_true, if_false] <;>
    simp only [DS3231_ALM2_SZ, if_true, cmpBit_eq] <;>
    rfl

/-! ## Lemmas: weekday and totality of the constructor -/

/-- For every year 2000..2099 and month, the part of the weekday sum that does
not depend on the day is non-negative and congruent modulo 7 to the days before
the month plus 5. -/
theorem DayOfWeek_sum_congr (y m : Nat) (hy : y < 100) (hm1 : 1 ≤ m) (hm2 : m ≤ 12) :
    dowTable[m - 1]? = some (dowTable.getD (m - 1) 0) ∧
    0 ≤ DayOfWeek_sum ((y : Int) + 2000 - (if m < 3 then 1 else 0)) (dowTable.getD (m - 1) 0) 0 ∧
    DayOfWeek_sum ((y : Int) + 2000 - (if m < 3 then 1 else 0)) (dowTable.getD (m - 1) 0) 0 % 7 =
      ((daysBeforeYear y + daysBeforeMonth (isLeap y) m + 5 : Nat) : Int) % 7 := by
  revert m
  revert y
  decide

/-- For a date of the years 2000..2099 the weekday function agrees with the day
count from 2000-01-01. -/
theorem DayOfWeek_eq_weekdayOfDay (y m d : Nat) (hy : y ≤ 99) (hm1 : 1 ≤ m) (hm2 : m ≤ 12)
    (hd1 : 1 ≤ d) (hd2 : d ≤ 31) :
    DayOfWeek ((y : Int) + 2000) m d =
      some (weekdayOfDay (daysBeforeYear y + daysBeforeMonth (isLeap y) m + d - 1)) := by
  obtain ⟨ht, h0, hc⟩ := DayOfWeek_sum_congr y m (by omega) hm1 hm2
  have hm0 : ¬ m = 0 := by omega
  have hsum : DayOfWeek_sum ((y : Int) + 2000 - (if m < 3 then 1 else 0))
      (dowTable.getD (m - 1) 0) d =
      DayOfWeek_sum ((y : Int) + 2000 - (if m < 3 then 1 else 0)) (dowTable.getD (m - 1) 0) 0
        + (d : Int) := by
    unfold DayOfWeek_sum
    push_cast
    omega
  unfold DayOfWeek
  simp only [hm0, if_false, ht]
  refine congrArg some ?_
  rw [hsum]
  generalize DayOfWeek_sum ((y : Int) + 2000 - (if m < 3 then 1 else 0))
    (dowTable.getD (m - 1) 0) 0 = S at *
  generalize daysBeforeYear y + daysBeforeMonth (isLeap y) m = N at *
  rw [tmod_nonneg_eq _ _ (by omega) (by omega)]
  unfold toU8 weekdayOfDay
  push_cast at hc
  omega

/-- The two loops of the constructor return for every `int16_t` day count: the
year loop within its 90 iterations, the month loop within 12, with a month in
1..12 and without a read outside the table. -/
theorem loops_total (days : Int) (h0 : -32768 ≤ days) (h1 : days ≤ 32767) :
    ∃ (y : Nat) (r : Int) (m : Nat) (r2 : Int),
      yearLoop yearFuel 0 days = some (y, r, if y % 4 = 0 then 1 else 0) ∧
      monthLoop monthFuel 1 r (if y % 4 = 0 then 1 else 0) = some (m, r2) ∧
      y ≤ 89 ∧ 1 ≤ m ∧ m ≤ 12 ∧ -32768 ≤ r2 ∧ r2 < 31 := by
  by_cases hneg : days < 0
  · refine ⟨0, days, 1, days, ?_, ?_, by omega, by omega, by omega, h0, by omega⟩
    · have hlt : days < 365 + ((1 : Nat) : Int) := by omega
      rw [show yearFuel = 89 + 1 from rfl, yearLoop]
      simp only [Nat.zero_mod, if_true, hlt]
    · rw [show monthFuel = 12 + 1 from rfl, monthLoop]
      have hv : readDaysInMonth 1 = some 31 := rfl
      have hlt : days < ((31 : Nat) : Int) := by omega
      simp +decide only [hv, hlt, if_true, if_false]
  · obtain ⟨y, r, hyl, -, hy90, hr0, hr1, -⟩ :=
      yearLoop_spec yearFuel 0 days (by omega) h1 (by unfold yearFuel; omega)
        (by unfold yearFuel; omega)
    have hflag := leapFlag_eq y
    have hr1b : r < 365 + (if isLeap y then (1 : Int) else 0) := by
      unfold isLeap; by_cases h : y % 4 = 0 <;> simp [h] at hr1 ⊢ <;> omega
    have hdb1 : daysBeforeMonth (isLeap y) 1 = 0 := by cases isLeap y <;> decide
    obtain ⟨k, r2, hml, hk1, hk12, hr20, hr21, -⟩ :=
      monthLoop_spec (isLeap y) monthFuel 1 r (le_refl _) (by unfold monthFuel; omega) hr0
        (by split at hr1b <;> omega)
        (by rw [hdb1]; simpa using hr1b)
    have hml31 := monthLength_le (isLeap y) k
    refine ⟨y, r, k, r2, hyl, ?_, by unfold yearFuel at hy90; omega, hk1, hk12, by omega,
      by omega⟩
    rw [hflag]
    exact hml

/-- The constructor returns a calendar value for every argument. -/
theorem ofLong_total (t : Int) :
    ∃ (y : Nat) (r : Int) (m : Nat) (r2 : Int) (dt : DateTime),
      yearLoop yearFuel 0 (toI16 (Int.tdiv (Int.tdiv (Int.tdiv t 60) 60) 24)) =
        some (y, r, if y % 4 = 0 then 1 else 0) ∧
      monthLoop monthFuel 1 r (if y % 4 = 0 then 1 else 0) = some (m, r2) ∧
      1 ≤ m ∧ m ≤ 12 ∧ DateTime.ofLong t = some dt ∧ dt.m = m ∧ dt.yOff = y := by
  have hr : -32768 ≤ toI16 (Int.tdiv (Int.tdiv (Int.tdiv t 60) 60) 24) ∧
      toI16 (Int.tdiv (Int.tdiv (Int.tdiv t 60) 60) 24) ≤ 32767 := by
    unfold toI16
    omega
  obtain ⟨y, r, m, r2, hyl, hml, hy, hm1, hm12, -, -⟩ := loops_total _ hr.1 hr.2
  have hd : toU8 (r2 + 1) ≤ 255 := by unfold toU8; omega
  obtain ⟨w, hw, -, -⟩ :=
    DayOfWeek_in_range ((y : Int) + 2000) m (toU8 (r2 + 1)) (by omega) (by omega) hm1 hm12 hd
  refine ⟨y, r, m, r2, ⟨y, m, toU8 (r2 + 1), toU8 (Int.tmod (Int.tdiv (Int.tdiv t 60) 60) 24),
    toU8 (Int.tmod (Int.tdiv t 60) 60), toU8 (Int.tmod t 60), w⟩, hyl, hml, hm1, hm12, ?_,
    rfl, rfl⟩
  simp only [DateTime.ofLong, hyl, hml, hw]

/-- For `0 ≤ t < 2^31` the weekday of `DateTime(t)` is the weekday of the day
number `t / 86400`. -/
theorem ofLong_weekday (t : Int) (h0 : 0 ≤ t) (h1 : t < 2147483648) :
    ∃ dt, DateTime.ofLong t = some dt ∧ dt.wday = weekdayOfDay (t / 86400).toNat := by
  obtain ⟨dt, hdt, -, -, -, hy, hm1, hm12, hd1, hd2, hsum, hw, -, -⟩ := ofLong_decompose t h0 h1
  have hml := monthLength_le (isLeap dt.yOff) dt.m
  have he := DayOfWeek_eq_weekdayOfDay dt.yOff dt.m dt.d (by omega) hm1 hm12 hd1 (by omega)
  rw [hw] at he
  have hn : daysBeforeYear dt.yOff + daysBeforeMonth (isLeap dt.yOff) dt.m + dt.d - 1 =
      (t / 86400).toNat := by omega
  rw [hn] at he
  exact ⟨dt, hdt, Option.some.inj he⟩

/-- Setting bit 5 of a byte: bit 5 is set, the other seven bits are kept. -/
theorem lor_20 (x : Nat) :
    Nat.testBit ((x % 256) ||| 0b00100000) 5 = true ∧
      (∀ i, i < 8 → i ≠ 5 → Nat.testBit ((x % 256) ||| 0b00100000) i = Nat.testBit x i) := by
  have hb : ∀ i, i < 8 → i ≠ 5 → Nat.testBit 0b00100000 i = false := by decide
  have h5 : Nat.testBit 0b00100000 5 = true := by decide
  refine ⟨?_, ?_⟩
  · rw [Nat.testBit_lor, h5, Bool.or_true]
  · intro i hi hne
    have h256 : (256 : Nat) = 2 ^ 8 := by norm_num
    rw [Nat.testBit_lor, hb i hi hne, h256, Nat.testBit_mod_two_pow]
    simp [hi]

set_option maxRecDepth 8192 in
/-- Facts on a temperature byte: below 128 the sign bit is clear; from 128 up it
is set and the two's-complement negation is `256 - u`. -/
theorem tempByte_facts (u : Nat) (h : u < 256) :
    (u < 128 → u &&& 0b10000000 = 0) ∧
    (128 ≤ u → u &&& 0b10000000 ≠ 0 ∧ ((u ^^^ 0b11111111) + 0x1) % 256 = 256 - u) := by
  revert u
  decide

/-! ## The claims -/

/-- C1 (as amended): for every calendar tuple with year in 2000..2099, month in
1..12, a day valid for that month (February has 29 days exactly when
`year % 4 = 0`), hour below 24, minute and second below 60 and any weekday,
`get()` of the value built from the fields returns a count `g`; whenever `g` is
below `2^31`, the range of the `long` parameter, `DateTime(long)` built from
`g` has the same year, month, day, hour, minute and second. -/
theorem ofFields_get_ofLong_roundtrip (year month date hour min sec wd : Nat)
    (hy0 : 2000 ≤ year) (hy1 : year ≤ 2099) (hm0 : 1 ≤ month) (hm1 : month ≤ 12)
    (hd0 : 1 ≤ date) (hd1 : date ≤ monthLength (decide (year % 4 = 0)) month)
    (hh : hour < 24) (hmi : min < 60) (hs : sec < 60) :
    ∃ g, (DateTime.ofFields year month date hour min sec wd).get = some g ∧
      (g < 2147483648 →
        ∃ dt, DateTime.ofLong (toLong g) = some dt ∧ dt.year = year ∧ dt.month = month ∧
          dt.date = date ∧ dt.hour = hour ∧ dt.minute = min ∧ dt.second = sec) := by
  rw [← isLeap_sub year hy0] at hd1
  refine ⟨_, ofFields_get year month date hour min sec wd hy0 hy1 hm0 hm1 hd0 hd1 hh hmi hs, ?_⟩
  have hdoy := dayOfYear_lt (isLeap (year - 2000)) month date hm0 hm1 hd1
  generalize hn : daysBeforeYear (year - 2000) + daysBeforeMonth (isLeap (year - 2000)) month
    + date = n at *
  intro hg
  have hn1 : 1 ≤ n := by omega
  obtain ⟨g, hgdef⟩ : ∃ g : Nat, g = (((n - 1) * 24 + hour) * 60 + min) * 60 + sec := ⟨_, rfl⟩
  rw [← hgdef] at hg ⊢
  have hgi : ((g : Nat) : Int) < 2147483648 := by exact_mod_cast hg
  rw [toLong_id (g : Int) (by omega) hgi]
  obtain ⟨dt, hdt, hss, hmm, hhh, hy, hm1b, hm12, hd1b, hd2, hsum, -, -, -⟩ :=
    ofLong_decompose (g : Int) (by omega) hgi
  have hq : (g : Int) / 86400 = ((n - 1 : Nat) : Int) := by omega
  rw [hq] at hsum
  have hsum2 : daysBeforeYear (year - 2000) + daysBeforeMonth (isLeap (year - 2000)) month
      + date = daysBeforeYear dt.yOff + daysBeforeMonth (isLeap dt.yOff) dt.m + dt.d := by
    rw [hn]; omega
  obtain ⟨e1, e2, e3⟩ := calendar_unique _ _ _ _ _ _ hm0 hm1 hm1b hm12 hd0 hd1 hd1b hd2 hsum2
  refine ⟨dt, hdt, ?_, e2.symm, e3.symm, ?_, ?_, ?_⟩
  · unfold DateTime.year; omega
  · show dt.hh = hour
    omega
  · show dt.mm = min
    omega
  · show dt.ss = sec
    omega

/-- C1, witness: 2023-03-05 09:02:07 meets every hypothesis, its count is
731322127, below `2^31`, and the round trip returns the same fields. -/
theorem ofFields_get_ofLong_roundtrip_witness :
    (DateTime.ofFields 2023 3 5 9 2 7 1).get = some 731322127 ∧
    (731322127 : Nat) < 2147483648 ∧
    DateTime.ofLong (toLong (731322127 : Nat)) = some ⟨23, 3, 5, 9, 2, 7, 1⟩ ∧
    ∃ g, (DateTime.ofFields 2023 3 5 9 2 7 1).get = some g ∧
      (g < 2147483648 →
        ∃ dt, DateTime.ofLong (toLong g) = some dt ∧ dt.year = 2023 ∧ dt.month = 3 ∧
          dt.date = 5 ∧ dt.hour = 9 ∧ dt.minute = 2 ∧ dt.second = 7) :=
  ⟨by decide, by decide, by decide,
   ofFields_get_ofLong_roundtrip 2023 3 5 9 2 7 1 (by decide) (by decide) (by decide)
    (by decide) (by decide) (by decide) (by decide) (by decide) (by decide)⟩

/-- C1, counterexample: 2069-01-01 00:00:00 is a valid tuple of the claim;
`get()` returns 2177539200, which is not below `2^31`; converted to `long` it is
negative and `DateTime(long)` yields year 2000, day 70, hour 250, minute 228,
second 240. -/
theorem roundtrip_fails_2069 :
    (2000 ≤ 2069 ∧ 2069 ≤ 2099 ∧ 1 ≤ 1 ∧ 1 ≤ 12 ∧ 1 ≤ 1 ∧
      1 ≤ monthLength (decide (2069 % 4 = 0)) 1 ∧ 0 < 24 ∧ 0 < 60 ∧ 0 < 60) ∧
    (DateTime.ofFields 2069 1 1 0 0 0 1).get = some 2177539200 ∧
    toLong (2177539200 : Nat) = -2117428096 ∧
    DateTime.ofLong (toLong (2177539200 : Nat)) = some ⟨0, 1, 70, 250, 228, 240, 6⟩ ∧
    DateTime.year ⟨0, 1, 70, 250, 228, 240, 6⟩ ≠ 2069 ∧
    DateTime.date ⟨0, 1, 70, 250, 228, 240, 6⟩ ≠ 1 ∧
    DateTime.hour ⟨0, 1, 70, 250, 228, 240, 6⟩ ≠ 0 := by
  decide

/-- C2: for every linear second count `t` with `0 ≤ t < 2^31`, `DateTime(t)` is
produced and its `get()` is `t`; and for every Unix timestamp `ts` with
`946684800 ≤ ts < 946684800 + 2^31`, `makeDateTime(ts)` is produced and its
`getEpoch()` is `ts`. -/
theorem ofLong_get_inverse (t : Int) (ts : Nat) (h0 : 0 ≤ t) (h1 : t < 2147483648)
    (h2 : 946684800 ≤ ts) (h3 : ts < 946684800 + 2147483648) :
    (∃ dt, DateTime.ofLong t = some dt ∧ dt.get = some t.toNat) ∧
    (∃ dt, makeDateTime ts = some dt ∧ dt.getEpoch = some ts) := by
  refine ⟨ofLong_get t h0 h1, ?_⟩
  have hx : toLong (toU32 ((ts : Int) - (EPOCH_TIME_OFF : Int))) = (ts : Int) - 946684800 := by
    unfold toLong toU32 EPOCH_TIME_OFF
    omega
  obtain ⟨dt, hdt, hget⟩ := ofLong_get ((ts : Int) - 946684800) (by omega) (by omega)
  refine ⟨dt, ?_, ?_⟩
  · unfold makeDateTime
    rw [if_neg (by unfold EPOCH_TIME_OFF; omega), hx, hdt]
  · unfold DateTime.getEpoch
    rw [hget]
    simp only []
    refine congrArg some ?_
    unfold toU32 EPOCH_TIME_OFF
    omega

/-- C2, witness: `t = 731322127` and `ts = 1678006927` (2023-03-05
09:02:07). -/
theorem ofLong_get_inverse_witness :
    ((0 : Int) ≤ 731322127 ∧ (731322127 : Int) < 2147483648 ∧
      946684800 ≤ 1678006927 ∧ 1678006927 < 946684800 + 2147483648) ∧
    (∃ dt, DateTime.ofLong 731322127 = some dt ∧ dt.get = some (731322127 : Int).toNat) ∧
    (∃ dt, makeDateTime 1678006927 = some dt ∧ dt.getEpoch = some 1678006927) :=
  ⟨by decide,
   ofLong_get_inverse 731322127 1678006927 (by decide) (by decide) (by decide) (by decide)⟩

/-- C3 (as amended): for every linear second count `t` with `0 ≤ t < 2^31`, the
non-negative range of the `long` parameter, `DateTime(t)` is a valid calendar
value: second below 60, minute below 60, hour below 24, year offset at most 99,
month in 1..12, day between 1 and the length of that month in that year, and
weekday in 1..7. -/
theorem ofLong_valid (t : Int) (h0 : 0 ≤ t) (h1 : t < 2147483648) :
    ∃ dt, DateTime.ofLong (toLong t) = some dt ∧
      dt.second < 60 ∧ dt.minute < 60 ∧ dt.hour < 24 ∧ dt.year2k ≤ 99 ∧
      1 ≤ dt.month ∧ dt.month ≤ 12 ∧
      1 ≤ dt.date ∧ dt.date ≤ monthLength (isLeap dt.year2k) dt.month ∧
      1 ≤ dt.dayOfWeek ∧ dt.dayOfWeek ≤ 7 := by
  rw [toLong_id t (by omega) h1]
  obtain ⟨dt, hdt, hss, hmm, hhh, hy, hm1, hm12, hd1, hd2, -, -, hw1, hw7⟩ :=
    ofLong_decompose t h0 h1
  refine ⟨dt, hdt, ?_, ?_, ?_, ?_, hm1, hm12, hd1, hd2, hw1, hw7⟩
  · show dt.ss < 60
    omega
  · show dt.mm < 60
    omega
  · show dt.hh < 24
    omega
  · show dt.yOff ≤ 99
    omega

/-- C3, witness: `t = 2147483647`, the last count of the amended range. -/
theorem ofLong_valid_witness :
    ((0 : Int) ≤ 2147483647 ∧ (2147483647 : Int) < 2147483648) ∧
    DateTime.ofLong (toLong 2147483647) = some ⟨68, 1, 19, 3, 14, 7, 5⟩ ∧
    ∃ dt, DateTime.ofLong (toLong 2147483647) = some dt ∧
      dt.second < 60 ∧ dt.minute < 60 ∧ dt.hour < 24 ∧ dt.year2k ≤ 99 ∧
      1 ≤ dt.month ∧ dt.month ≤ 12 ∧
      1 ≤ dt.date ∧ dt.date ≤ monthLength (isLeap dt.year2k) dt.month ∧
      1 ≤ dt.dayOfWeek ∧ dt.dayOfWeek ≤ 7 :=
  ⟨by decide, by decide, ofLong_valid 2147483647 (by decide) (by decide)⟩

/-- C3, counterexample: `t = 2147483648` is within `0 ≤ t < 3155760000`; as a
`long` it is `-2147483648`, and `DateTime` of it has second 248, minute 242,
hour 253 and day 234 of January. -/
theorem ofLong_invalid_at_2pow31 :
    (0 : Int) ≤ 2147483648 ∧ (2147483648 : Int) < 3155760000 ∧
    toLong 2147483648 = -2147483648 ∧
    DateTime.ofLong (toLong 2147483648) = some ⟨0, 1, 234, 253, 242, 248, 2⟩ ∧
    ¬ (DateTime.second ⟨0, 1, 234, 253, 242, 248, 2⟩ < 60) ∧
    ¬ (DateTime.minute ⟨0, 1, 234, 253, 242, 248, 2⟩ < 60) ∧
    ¬ (DateTime.hour ⟨0, 1, 234, 253, 242, 248, 2⟩ < 24) ∧
    ¬ (DateTime.date ⟨0, 1, 234, 253, 242, 248, 2⟩ ≤ monthLength (isLeap 0) 1) := by
  decide

/-- C4: `DayOfWeek(y, m, d)` returns a value in 1..7 for every year
`1752 < y ≤ 9999`, month `1 ≤ m ≤ 12` and day `1 ≤ d ≤ 31` (the table read is
inside the table and the `int` sum stays within 16 bits), and
`DayOfWeek(2000, 1, 1) = 7`, `DayOfWeek(2009, 12, 26) = 7`. -/
theorem DayOfWeek_range (y : Int) (m d : Nat) (hy : 1752 < y) (hy2 : y ≤ 9999) (hm : 1 ≤ m)
    (hm2 : m ≤ 12) (hd : 1 ≤ d) (hd2 : d ≤ 31) :
    (∃ w, DayOfWeek y m d = some w ∧ 1 ≤ w ∧ w ≤ 7) ∧
    (∃ tm, dowTable[m - 1]? = some tm ∧
      0 ≤ DayOfWeek_sum (y - (if m < 3 then 1 else 0)) tm d ∧
      DayOfWeek_sum (y - (if m < 3 then 1 else 0)) tm d < 32768) ∧
    DayOfWeek 2000 1 1 = some 7 ∧ DayOfWeek 2009 12 26 = some 7 := by
  refine ⟨DayOfWeek_in_range y m d hy hy2 hm hm2 (by omega), ?_, by decide, by decide⟩
  interval_cases m <;>
    simp [dowTable, DayOfWeek_sum] <;>
    (rw [tdiv_nonneg_eq _ _ (by omega) (by omega), tdiv_nonneg_eq _ _ (by omega) (by omega),
         tdiv_nonneg_eq _ _ (by omega) (by omega)]
     omega)

/-- C4, witness: 2023-03-05, a Sunday. -/
theorem DayOfWeek_range_witness :
    ((1752 : Int) < 2023 ∧ (2023 : Int) ≤ 9999 ∧ 1 ≤ 3 ∧ 3 ≤ 12 ∧ 1 ≤ 5 ∧ 5 ≤ 31) ∧
    DayOfWeek 2023 3 5 = some 1 ∧
    ((∃ w, DayOfWeek 2023 3 5 = some w ∧ 1 ≤ w ∧ w ≤ 7) ∧
    (∃ tm, dowTable[3 - 1]? = some tm ∧
      0 ≤ DayOfWeek_sum (2023 - (if 3 < 3 then 1 else 0)) tm 5 ∧
      DayOfWeek_sum (2023 - (if 3 < 3 then 1 else 0)) tm 5 < 32768) ∧
    DayOfWeek 2000 1 1 = some 7 ∧ DayOfWeek 2009 12 26 = some 7) :=
  ⟨by decide, by decide,
   DayOfWeek_range 2023 3 5 (by decide) (by decide) (by decide) (by decide) (by decide)
    (by decide)⟩

/-- C5: for every `n` in 0..99, `bcd2bin(bin2bcd(n)) = n` in 8-bit arithmetic;
`bin2bcd(0x00) = 0` and `bcd2bin(0x59) = 59`. -/
theorem bcd_roundtrip (n : Nat) (h : n < 100) :
    bcd2bin (bin2bcd n) = n ∧ bin2bcd 0x00 = 0 ∧ bcd2bin 0x59 = 59 := by
  refine ⟨?_, by decide, by decide⟩
  revert n
  decide

/-- C5, witness: `n = 42`, encoded as `0x42`. -/
theorem bcd_roundtrip_witness :
    42 < 100 ∧ bin2bcd 42 = 0x42 ∧
    (bcd2bin (bin2bcd 42) = 42 ∧ bin2bcd 0x00 = 0 ∧ bcd2bin 0x59 = 59) :=
  ⟨by decide, by decide, bcd_roundtrip 42 (by decide)⟩

/-- C6: for every calendar value `dt`, `getEpoch()` is `get()` plus 946684800
modulo `2^32` and `getY2k_secs()` is `get()`; `DateTime(0)` is 2000-01-01
00:00:00 with `get() = 0` and `getEpoch() = 946684800`. -/
theorem getEpoch_offset (dt : DateTime) :
    dt.getEpoch = dt.get.map (fun g => (g + 946684800) % 4294967296) ∧
    dt.getY2k_secs = dt.get ∧
    DateTime.ofLong 0 = some ⟨0, 1, 1, 0, 0, 0, 7⟩ ∧
    DateTime.get ⟨0, 1, 1, 0, 0, 0, 7⟩ = some 0 ∧
    DateTime.getEpoch ⟨0, 1, 1, 0, 0, 0, 7⟩ = some 946684800 := by
  refine ⟨?_, rfl, by decide, by decide, by decide⟩
  unfold DateTime.getEpoch
  cases dt.get with
  | none => rfl
  | some g =>
    simp only [Option.map]
    refine congrArg some ?_
    unfold toU32 EPOCH_TIME_OFF
    omega

/-- C7: for every timestamp `ts < 946684800`, `makeDateTime(ts)` equals
`DateTime(0)`, which is 2000-01-01 00:00:00 with weekday 7, and `setEpoch(ts)`
completes, sending the bytes `0x00, 0x00, 0x00, 0x07, 0x01, 0x01, 0x00` after
the address `0x00`, so that registers `0x00..0x06` hold them and the registers
from `0x07` upward keep their values. -/
theorem setEpoch_clamps (r : Regs) (ts : Nat) (h : ts < 946684800) :
    makeDateTime ts = DateTime.ofLong 0 ∧
    DateTime.ofLong 0 = some ⟨0, 1, 1, 0, 0, 0, 7⟩ ∧
    setDateTime_bytes ⟨0, 1, 1, 0, 0, 0, 7⟩ = [0x00, 0x00, 0x00, 0x00, 0x07, 0x01, 0x01, 0x00] ∧
    ∃ r2, setEpoch r ts = some r2 ∧
      r2 0x00 = 0x00 ∧ r2 0x01 = 0x00 ∧ r2 0x02 = 0x00 ∧ r2 0x03 = 0x07 ∧
      r2 0x04 = 0x01 ∧ r2 0x05 = 0x01 ∧ r2 0x06 = 0x00 ∧
      ∀ a, 7 ≤ a → r2 a = r a := by
  have hm := makeDateTime_before_epoch ts h
  have hb : setDateTime_bytes ⟨0, 1, 1, 0, 0, 0, 7⟩ =
      [0x00, 0x00, 0x00, 0x00, 0x07, 0x01, 0x01, 0x00] := by decide
  refine ⟨by rw [hm]; decide, by decide, hb, setDateTime r ⟨0, 1, 1, 0, 0, 0, 7⟩, ?_, ?_⟩
  · unfold setEpoch
    rw [hm]
  · unfold setDateTime
    rw [hb]
    simp only [Regs.transmit, Regs.writeSeq, Regs.write]
    refine ⟨by simp, by simp, by simp, by simp, by simp, by simp, by simp, ?_⟩
    intro a ha
    have h0 : a ≠ 0 := by omega
    have h1 : a ≠ 1 := by omega
    have h2 : a ≠ 2 := by omega
    have h3 : a ≠ 3 := by omega
    have h4 : a ≠ 4 := by omega
    have h5 : a ≠ 5 := by omega
    have h6 : a ≠ 6 := by omega
    simp [h0, h1, h2, h3, h4, h5, h6]

/-- C7, witness: `ts = 946684799`, one second before the offset, on a register
file holding `0xFF` everywhere. -/
theorem setEpoch_clamps_witness :
    (946684799 : Nat) < 946684800 ∧
    (makeDateTime 946684799 = DateTime.ofLong 0 ∧
    DateTime.ofLong 0 = some ⟨0, 1, 1, 0, 0, 0, 7⟩ ∧
    setDateTime_bytes ⟨0, 1, 1, 0, 0, 0, 7⟩ = [0x00, 0x00, 0x00, 0x00, 0x07, 0x01, 0x01, 0x00] ∧
    ∃ r2, setEpoch (fun _ => 0xFF) 946684799 = some r2 ∧
      r2 0x00 = 0x00 ∧ r2 0x01 = 0x00 ∧ r2 0x02 = 0x00 ∧ r2 0x03 = 0x07 ∧
      r2 0x04 = 0x01 ∧ r2 0x05 = 0x01 ∧ r2 0x06 = 0x00 ∧
      ∀ a, 7 ≤ a → r2 a = (fun _ => 0xFF) a) :=
  ⟨by decide, setEpoch_clamps (fun _ => 0xFF) 946684799 (by decide)⟩

/-- C8: the explicit-field constructor stores its arguments: for a year in
2000..2099, or an offset 0..99, `year()` is 2000 plus the offset and `year2k()`
the offset, at most 99; `month()`, `date()`, `hour()`, `minute()`, `second()`
and `dayOfWeek()` return the supplied values, the weekday being the value passed
in even when it differs from `DayOfWeek` of the date (2000-01-01 built with
weekday 1, while `DayOfWeek` gives 7). -/
theorem ofFields_stores (year month date hour min sec wd : Nat)
    (hy : (2000 ≤ year ∧ year ≤ 2099) ∨ year ≤ 99) :
    (DateTime.ofFields year month date hour min sec wd).year
        = 2000 + (if 2000 ≤ year then year - 2000 else year) ∧
    (DateTime.ofFields year month date hour min sec wd).year2k
        = (if 2000 ≤ year then year - 2000 else year) ∧
    (DateTime.ofFields year month date hour min sec wd).year2k ≤ 99 ∧
    (DateTime.ofFields year month date hour min sec wd).month = month ∧
    (DateTime.ofFields year month date hour min sec wd).date = date ∧
    (DateTime.ofFields year month date hour min sec wd).hour = hour ∧
    (DateTime.ofFields year month date hour min sec wd).minute = min ∧
    (DateTime.ofFields year month date hour min sec wd).second = sec ∧
    (DateTime.ofFields year month date hour min sec wd).dayOfWeek = wd ∧
    (DateTime.ofFields 2000 1 1 0 0 0 1).dayOfWeek = 1 ∧ DayOfWeek 2000 1 1 = some 7 := by
  refine ⟨?_, ?_, ?_, rfl, rfl, rfl, rfl, rfl, rfl, rfl, by decide⟩
  · unfold DateTime.year DateTime.ofFields
    simp only [ge_iff_le]
    split <;> omega
  · unfold DateTime.year2k DateTime.ofFields
    simp only [ge_iff_le]
    split <;> omega
  · unfold DateTime.year2k DateTime.ofFields
    simp only [ge_iff_le]
    split <;> omega

/-- C8, witness: the fields of 2023-03-05 09:02:07 with weekday 4. -/
theorem ofFields_stores_witness :
    ((2000 ≤ 2023 ∧ 2023 ≤ 2099) ∨ 2023 ≤ 99) ∧
    (DateTime.ofFields 2023 3 5 9 2 7 4).year = 2023 ∧
    ((DateTime.ofFields 2023 3 5 9 2 7 4).year
        = 2000 + (if 2000 ≤ 2023 then 2023 - 2000 else 2023) ∧
    (DateTime.ofFields 2023 3 5 9 2 7 4).year2k = (if 2000 ≤ 2023 then 2023 - 2000 else 2023) ∧
    (DateTime.ofFields 2023 3 5 9 2 7 4).year2k ≤ 99 ∧
    (DateTime.ofFields 2023 3 5 9 2 7 4).month = 3 ∧
    (DateTime.ofFields 2023 3 5 9 2 7 4).date = 5 ∧
    (DateTime.ofFields 2023 3 5 9 2 7 4).hour = 9 ∧
    (DateTime.ofFields 2023 3 5 9 2 7 4).minute = 2 ∧
    (DateTime.ofFields 2023 3 5 9 2 7 4).second = 7 ∧
    (DateTime.ofFields 2023 3 5 9 2 7 4).dayOfWeek = 4 ∧
    (DateTime.ofFields 2000 1 1 0 0 0 1).dayOfWeek = 1 ∧ DayOfWeek 2000 1 1 = some 7) :=
  ⟨by decide, by decide, ofFields_stores 2023 3 5 9 2 7 4 (by decide)⟩

/-- C9: for every date text `Mon dd 20yy`, `Mon` one of the twelve
abbreviations Jan .. Dec, `dd` two digits or a space followed by one digit, and
every time text `hh:mm:ss` of two-digit fields, `DateTime(date, time)` is
produced with month the 1-based index of `Mon`, day `dd`, year `2000 + yy`,
hour `hh`, minute `mm`, second `ss` and weekday `DayOfWeek(2000 + yy, month,
day)`; `("Dec 26 2009", "12:34:56")` gives 2009-12-26 12:34:56, weekday 7. -/
theorem ofText_parses (i : Nat) (c1 c2 y1 y2 h1 h2 n1 n2 s1 s2 : Char) (hi : i < 12)
    (hc1 : c1 = ' ' ∨ isDigit c1) (hc2 : isDigit c2) (hy1 : isDigit y1) (hy2 : isDigit y2)
    (hh1 : isDigit h1) (hh2 : isDigit h2) (hn1 : isDigit n1) (hn2 : isDigit n2)
    (hs1 : isDigit s1) (hs2 : isDigit s2) :
    (∃ dt, DateTime.ofText (monthNames.getD i [] ++ [' ', c1, c2, ' ', '2', '0', y1, y2])
          [h1, h2, ':', n1, n2, ':', s1, s2] = some dt ∧
      dt.month = i + 1 ∧ dt.date = field2 c1 c2 ∧ dt.year = 2000 + field2 y1 y2 ∧
      dt.hour = field2 h1 h2 ∧ dt.minute = field2 n1 n2 ∧ dt.second = field2 s1 s2 ∧
      DayOfWeek (2000 + (field2 y1 y2 : Int)) (i + 1) (field2 c1 c2) = some dt.dayOfWeek) ∧
    DateTime.ofText "Dec 26 2009".toList "12:34:56".toList = some ⟨9, 12, 26, 12, 34, 56, 7⟩ := by
  refine ⟨?_, by decide⟩
  interval_cases i
  · exact ofText_of_month 'J' 'a' 'n' c1 c2 y1 y2 h1 h2 n1 n2 s1 s2 1 rfl (by omega) (by omega)
      hc1 hc2 hy1 hy2 hh1 hh2 hn1 hn2 hs1 hs2
  · exact ofText_of_month 'F' 'e' 'b' c1 c2 y1 y2 h1 h2 n1 n2 s1 s2 2 rfl (by omega) (by omega)
      hc1 hc2 hy1 hy2 hh1 hh2 hn1 hn2 hs1 hs2
  · exact ofText_of_month 'M' 'a' 'r' c1 c2 y1 y2 h1 h2 n1 n2 s1 s2 3 rfl (by omega) (by omega)
      hc1 hc2 hy1 hy2 hh1 hh2 hn1 hn2 hs1 hs2
  · exact ofText_of_month 'A' 'p' 'r' c1 c2 y1 y2 h1 h2 n1 n2 s1 s2 4 rfl (by omega) (by omega)
      hc1 hc2 hy1 hy2 hh1 hh2 hn1 hn2 hs1 hs2
  · exact ofText_of_month 'M' 'a' 'y' c1 c2 y1 y2 h1 h2 n1 n2 s1 s2 5 rfl (by omega) (by omega)
      hc1 hc2 hy1 hy2 hh1 hh2 hn1 hn2 hs1 hs2
  · exact ofText_of_month 'J' 'u' 'n' c1 c2 y1 y2 h1 h2 n1 n2 s1 s2 6 rfl (by omega) (by omega)
      hc1 hc2 hy1 hy2 hh1 hh2 hn1 hn2 hs1 hs2
  · exact ofText_of_month 'J' 'u' 'l' c1 c2 y1 y2 h1 h2 n1 n2 s1 s2 7 rfl (by omega) (by omega)
      hc1 hc2 hy1 hy2 hh1 hh2 hn1 hn2 hs1 hs2
  · exact ofText_of_month 'A' 'u' 'g' c1 c2 y1 y2 h1 h2 n1 n2 s1 s2 8 rfl (by omega) (by omega)
      hc1 hc2 hy1 hy2 hh1 hh2 hn1 hn2 hs1 hs2
  · exact ofText_of_month 'S' 'e' 'p' c1 c2 y1 y2 h1 h2 n1 n2 s1 s2 9 rfl (by omega) (by omega)
      hc1 hc2 hy1 hy2 hh1 hh2 hn1 hn2 hs1 hs2
  · exact ofText_of_month 'O' 'c' 't' c1 c2 y1 y2 h1 h2 n1 n2 s1 s2 10 rfl (by omega) (by omega)
      hc1 hc2 hy1 hy2 hh1 hh2 hn1 hn2 hs1 hs2
  · exact ofText_of_month 'N' 'o' 'v' c1 c2 y1 y2 h1 h2 n1 n2 s1 s2 11 rfl (by omega) (by omega)
      hc1 hc2 hy1 hy2 hh1 hh2 hn1 hn2 hs1 hs2
  · exact ofText_of_month 'D' 'e' 'c' c1 c2 y1 y2 h1 h2 n1 n2 s1 s2 12 rfl (by omega) (by omega)
      hc1 hc2 hy1 hy2 hh1 hh2 hn1 hn2 hs1 hs2

/-- C9, witness: `("Jun 26 2009", "12:34:56")`. -/
theorem ofText_parses_witness :
    (5 < 12 ∧ ('2' = ' ' ∨ isDigit '2') ∧ isDigit '6' ∧ isDigit '0' ∧ isDigit '9' ∧
      isDigit '1' ∧ isDigit '2' ∧ isDigit '3' ∧ isDigit '4' ∧ isDigit '5' ∧ isDigit '6') ∧
    ((∃ dt, DateTime.ofText (monthNames.getD 5 [] ++ [' ', '2', '6', ' ', '2', '0', '0', '9'])
          ['1', '2', ':', '3', '4', ':', '5', '6'] = some dt ∧
      dt.month = 5 + 1 ∧ dt.date = field2 '2' '6' ∧ dt.year = 2000 + field2 '0' '9' ∧
      dt.hour = field2 '1' '2' ∧ dt.minute = field2 '3' '4' ∧ dt.second = field2 '5' '6' ∧
      DayOfWeek (2000 + (field2 '0' '9' : Int)) (5 + 1) (field2 '2' '6') = some dt.dayOfWeek) ∧
    DateTime.ofText "Dec 26 2009".toList "12:34:56".toList = some ⟨9, 12, 26, 12, 34, 56, 7⟩) :=
  ⟨by decide, ofText_parses 5 '2' '6' '0' '9' '1' '2' '3' '4' '5' '6' (by decide)
    (Or.inr (by decide)) (by decide) (by decide) (by decide) (by decide) (by decide) (by decide)
    (by decide) (by decide) (by decide)⟩

/-- C10: for every calendar value with year 2000..2099 and month, day, hour,
minute, second each below 100, `addToString` returns the given string followed
by exactly 19 characters `YYYY-MM-DD HH:MM:SS`, the year as 4 decimal digits and
every other field as 2 decimal digits with a leading zero where needed;
`(2023, 3, 5, 9, 2, 7)` renders as `2023-03-05 09:02:07`. -/
theorem addToString_format (dt : DateTime) (str : List Char) (hb : dt.year2k < 256)
    (hy0 : 2000 ≤ dt.year) (hy1 : dt.year ≤ 2099)
    (hm : dt.month < 100) (hd : dt.date < 100) (hh : dt.hour < 100) (hmi : dt.minute < 100)
    (hs : dt.second < 100) :
    dt.addToString str = str ++
      [digitChar (dt.year / 1000), digitChar (dt.year / 100 % 10),
       digitChar (dt.year / 10 % 10), digitChar (dt.year % 10), '-',
       digitChar (dt.month / 10), digitChar (dt.month % 10), '-',
       digitChar (dt.date / 10), digitChar (dt.date % 10), ' ',
       digitChar (dt.hour / 10), digitChar (dt.hour % 10), ':',
       digitChar (dt.minute / 10), digitChar (dt.minute % 10), ':',
       digitChar (dt.second / 10), digitChar (dt.second % 10)] ∧
    (dt.addToString str).length = str.length + 19 ∧
    (DateTime.ofFields 2023 3 5 9 2 7 1).addToString [] = "2023-03-05 09:02:07".toList := by
  have hy : dt.yOff ≤ 99 := by
    unfold DateTime.year at hy0 hy1
    unfold DateTime.year2k at hb
    omega
  have hyr : dt.year = 2000 + dt.yOff := by unfold DateTime.year; omega
  have e1 : (2000 + dt.yOff) / 1000 = 2 := by omega
  have e2 : (2000 + dt.yOff) / 100 % 10 = 0 := by omega
  have e3 : (2000 + dt.yOff) / 10 % 10 = dt.yOff / 10 := by omega
  have e4 : (2000 + dt.yOff) % 10 = dt.yOff % 10 := by omega
  have key : dt.addToString str = str ++
      [digitChar (dt.year / 1000), digitChar (dt.year / 100 % 10),
       digitChar (dt.year / 10 % 10), digitChar (dt.year % 10), '-',
       digitChar (dt.month / 10), digitChar (dt.month % 10), '-',
       digitChar (dt.date / 10), digitChar (dt.date % 10), ' ',
       digitChar (dt.hour / 10), digitChar (dt.hour % 10), ':',
       digitChar (dt.minute / 10), digitChar (dt.minute % 10), ':',
       digitChar (dt.second / 10), digitChar (dt.second % 10)] := by
    unfold DateTime.addToString
    simp only [hyr, e1, e2, e3, e4, DateTime.month, DateTime.date, DateTime.hour,
      DateTime.minute, DateTime.second]
    rw [add04d_eq _ _ hy, add02d_eq _ dt.m hm, add02d_eq _ dt.d hd, add02d_eq _ dt.hh hh,
      add02d_eq _ dt.mm hmi, add02d_eq _ dt.ss hs]
    simp
  refine ⟨key, ?_, by decide⟩
  rw [key]
  simp

/-- C10, witness: 2023-03-05 09:02:07 appended to the text `t=`. -/
theorem addToString_format_witness :
    (DateTime.year2k ⟨23, 3, 5, 9, 2, 7, 1⟩ < 256 ∧ 2000 ≤ DateTime.year ⟨23, 3, 5, 9, 2, 7, 1⟩ ∧
      DateTime.year ⟨23, 3, 5, 9, 2, 7, 1⟩ ≤ 2099) ∧
    DateTime.addToString ⟨23, 3, 5, 9, 2, 7, 1⟩ ['t', '='] = "t=2023-03-05 09:02:07".toList ∧
    (DateTime.addToString ⟨23, 3, 5, 9, 2, 7, 1⟩ ['t', '='] = ['t', '='] ++
      [digitChar (DateTime.year ⟨23, 3, 5, 9, 2, 7, 1⟩ / 1000),
       digitChar (DateTime.year ⟨23, 3, 5, 9, 2, 7, 1⟩ / 100 % 10),
       digitChar (DateTime.year ⟨23, 3, 5, 9, 2, 7, 1⟩ / 10 % 10),
       digitChar (DateTime.year ⟨23, 3, 5, 9, 2, 7, 1⟩ % 10), '-',
       digitChar (DateTime.month ⟨23, 3, 5, 9, 2, 7, 1⟩ / 10),
       digitChar (DateTime.month ⟨23, 3, 5, 9, 2, 7, 1⟩ % 10), '-',
       digitChar (DateTime.date ⟨23, 3, 5, 9, 2, 7, 1⟩ / 10),
       digitChar (DateTime.date ⟨23, 3, 5, 9, 2, 7, 1⟩ % 10), ' ',
       digitChar (DateTime.hour ⟨23, 3, 5, 9, 2, 7, 1⟩ / 10),
       digitChar (DateTime.hour ⟨23, 3, 5, 9, 2, 7, 1⟩ % 10), ':',
       digitChar (DateTime.minute ⟨23, 3, 5, 9, 2, 7, 1⟩ / 10),
       digitChar (DateTime.minute ⟨23, 3, 5, 9, 2, 7, 1⟩ % 10), ':',
       digitChar (DateTime.second ⟨23, 3, 5, 9, 2, 7, 1⟩ / 10),
       digitChar (DateTime.second ⟨23, 3, 5, 9, 2, 7, 1⟩ % 10)] ∧
    (DateTime.addToString ⟨23, 3, 5, 9, 2, 7, 1⟩ ['t', '=']).length = ['t', '='].length + 19 ∧
    (DateTime.ofFields 2023 3 5 9 2 7 1).addToString [] = "2023-03-05 09:02:07".toList) :=
  ⟨by decide, by decide,
   addToString_format ⟨23, 3, 5, 9, 2, 7, 1⟩ ['t', '='] (by decide) (by decide) (by decide)
    (by decide) (by decide) (by decide) (by decide) (by decide)⟩

/-- C11: for every calendar value with second and minute below 60, hour below
24, day at most 31, month at most 12 and year 2000..2099 (any weekday),
`setDateTime` sends the address `0x00` followed by exactly seven bytes, in the
order bcd(second), bcd(minute), bcd(hour), weekday, bcd(day), bcd(month),
bcd(year - 2000) with `bcd(n) = 16 * (n / 10) + n % 10`; registers
`0x00..0x06` then hold these bytes and no register from `0x07` upward
changes. -/
theorem setDateTime_writes (r : Regs) (dt : DateTime) (hs : dt.second < 60)
    (hmi : dt.minute < 60) (hh : dt.hour < 24) (hd : dt.date ≤ 31) (hm : dt.month ≤ 12)
    (hb : dt.year2k < 256) (hy0 : 2000 ≤ dt.year) (hy1 : dt.year ≤ 2099) :
    setDateTime_bytes dt =
      [0x00, bcdOf dt.second, bcdOf dt.minute, bcdOf dt.hour, dt.dayOfWeek, bcdOf dt.date,
       bcdOf dt.month, bcdOf (dt.year - 2000)] ∧
    (setDateTime_bytes dt).length = 1 + 7 ∧
    setDateTime r dt 0x00 = bcdOf dt.second ∧
    setDateTime r dt 0x01 = bcdOf dt.minute ∧
    setDateTime r dt 0x02 = bcdOf dt.hour ∧
    setDateTime r dt 0x03 = dt.dayOfWeek ∧
    setDateTime r dt 0x04 = bcdOf dt.date ∧
    setDateTime r dt 0x05 = bcdOf dt.month ∧
    setDateTime r dt 0x06 = bcdOf (dt.year - 2000) ∧
    ∀ a, 7 ≤ a → setDateTime r dt a = r a := by
  have hy : dt.yOff ≤ 99 := by
    unfold DateTime.year at hy0 hy1
    unfold DateTime.year2k at hb
    omega
  have hyr : dt.year - 2000 = dt.yOff := by unfold DateTime.year; omega
  have hbytes := setDateTime_bytes_valid dt hs hmi hh hd hm hy
  rw [hyr]
  unfold setDateTime
  rw [hbytes]
  exact ⟨rfl, rfl, transmit_time r _ _ _ _ _ _ _⟩

/-- C11, witness: 2023-03-05 09:02:07, weekday 1, on a register file holding
`0xFF` everywhere. -/
theorem setDateTime_writes_witness :
    (DateTime.second ⟨23, 3, 5, 9, 2, 7, 1⟩ < 60 ∧ DateTime.minute ⟨23, 3, 5, 9, 2, 7, 1⟩ < 60 ∧
      DateTime.hour ⟨23, 3, 5, 9, 2, 7, 1⟩ < 24 ∧ DateTime.date ⟨23, 3, 5, 9, 2, 7, 1⟩ ≤ 31 ∧
      DateTime.month ⟨23, 3, 5, 9, 2, 7, 1⟩ ≤ 12 ∧ DateTime.year2k ⟨23, 3, 5, 9, 2, 7, 1⟩ < 256 ∧
      2000 ≤ DateTime.year ⟨23, 3, 5, 9, 2, 7, 1⟩ ∧ DateTime.year ⟨23, 3, 5, 9, 2, 7, 1⟩ ≤ 2099) ∧
    setDateTime_bytes ⟨23, 3, 5, 9, 2, 7, 1⟩ = [0x00, 0x07, 0x02, 0x09, 0x01, 0x05, 0x03, 0x23] ∧
    (setDateTime_bytes ⟨23, 3, 5, 9, 2, 7, 1⟩ =
      [0x00, bcdOf (DateTime.second ⟨23, 3, 5, 9, 2, 7, 1⟩),
       bcdOf (DateTime.minute ⟨23, 3, 5, 9, 2, 7, 1⟩), bcdOf (DateTime.hour ⟨23, 3, 5, 9, 2, 7, 1⟩),
       DateTime.dayOfWeek ⟨23, 3, 5, 9, 2, 7, 1⟩, bcdOf (DateTime.date ⟨23, 3, 5, 9, 2, 7, 1⟩),
       bcdOf (DateTime.month ⟨23, 3, 5, 9, 2, 7, 1⟩),
       bcdOf (DateTime.year ⟨23, 3, 5, 9, 2, 7, 1⟩ - 2000)] ∧
    (setDateTime_bytes ⟨23, 3, 5, 9, 2, 7, 1⟩).length = 1 + 7 ∧
    setDateTime (fun _ => 0xFF) ⟨23, 3, 5, 9, 2, 7, 1⟩ 0x00
      = bcdOf (DateTime.second ⟨23, 3, 5, 9, 2, 7, 1⟩) ∧
    setDateTime (fun _ => 0xFF) ⟨23, 3, 5, 9, 2, 7, 1⟩ 0x01
      = bcdOf (DateTime.minute ⟨23, 3, 5, 9, 2, 7, 1⟩) ∧
    setDateTime (fun _ => 0xFF) ⟨23, 3, 5, 9, 2, 7, 1⟩ 0x02
      = bcdOf (DateTime.hour ⟨23, 3, 5, 9, 2, 7, 1⟩) ∧
    setDateTime (fun _ => 0xFF) ⟨23, 3, 5, 9, 2, 7, 1⟩ 0x03
      = DateTime.dayOfWeek ⟨23, 3, 5, 9, 2, 7, 1⟩ ∧
    setDateTime (fun _ => 0xFF) ⟨23, 3, 5, 9, 2, 7, 1⟩ 0x04
      = bcdOf (DateTime.date ⟨23, 3, 5, 9, 2, 7, 1⟩) ∧
    setDateTime (fun _ => 0xFF) ⟨23, 3, 5, 9, 2, 7, 1⟩ 0x05
      = bcdOf (DateTime.month ⟨23, 3, 5, 9, 2, 7, 1⟩) ∧
    setDateTime (fun _ => 0xFF) ⟨23, 3, 5, 9, 2, 7, 1⟩ 0x06
      = bcdOf (DateTime.year ⟨23, 3, 5, 9, 2, 7, 1⟩ - 2000) ∧
    ∀ a, 7 ≤ a → setDateTime (fun _ => 0xFF) ⟨23, 3, 5, 9, 2, 7, 1⟩ a = (fun _ => 0xFF) a) :=
  ⟨by decide, by decide,
   setDateTime_writes (fun _ => 0xFF) ⟨23, 3, 5, 9, 2, 7, 1⟩ (by decide) (by decide) (by decide)
    (by decide) (by decide) (by decide) (by decide) (by decide)⟩

/-- C12, the code at the failing input: for a calendar value whose hour byte is
40, `setDateTime` masks the binary hour (`40 & 0xBF = 40`) and then encodes it,
so the byte sent to and stored in the hour register `0x02` is `0x40`, with bit 6
set; the exact-time `enableInterrupts` masks after encoding and stores `0x00`
in its hour register for the same hour. -/
theorem setDateTime_hour40_sets_bit6 (r : Regs) :
    DateTime.ofFields 2023 3 5 40 0 0 1 = ⟨23, 3, 5, 40, 0, 0, 1⟩ ∧
    setDateTime_bytes ⟨23, 3, 5, 40, 0, 0, 1⟩ = [0x00, 0x00, 0x00, 0x40, 0x01, 0x05, 0x03, 0x23] ∧
    setDateTime r ⟨23, 3, 5, 40, 0, 0, 1⟩ 0x02 = 0x40 ∧
    Nat.testBit (setDateTime r ⟨23, 3, 5, 40, 0, 0, 1⟩ 0x02) 6 = true ∧
    enableInterrupts_hms r 40 0 0 0x09 = 0x00 := by
  have hb : setDateTime_bytes ⟨23, 3, 5, 40, 0, 0, 1⟩ =
      [0x00, 0x00, 0x00, 0x40, 0x01, 0x05, 0x03, 0x23] := by decide
  have h2 : setDateTime r ⟨23, 3, 5, 40, 0, 0, 1⟩ 0x02 = 0x40 := by
    unfold setDateTime
    rw [hb]
    exact (transmit_time r _ _ _ _ _ _ _).2.2.1
  refine ⟨by decide, hb, h2, ?_, ?_⟩
  · rw [h2]
    decide
  · have e : (0b00000000 ||| (bin2bcd 40 &&& 0b10111111)) = 0 := by decide
    simp only [enableInterrupts_hms, writeRegister_apply, e]
    simp [DS3231_AL1HOUR_REG, DS3231_AL1WDAY_REG]

/-- C13: on a register file that stores written bytes, for every calendar value
with second and minute below 60, hour below 24, day at most 31, month at most
12, year 2000..2099 and any weekday byte, `setDateTime` followed by `now`
returns the same calendar value, the weekday being the stored byte. -/
theorem now_after_setDateTime (r : Regs) (dt : DateTime) (hs : dt.second < 60)
    (hmi : dt.minute < 60) (hh : dt.hour < 24) (hd : dt.date ≤ 31) (hm : dt.month ≤ 12)
    (hb : dt.year2k < 256) (hy0 : 2000 ≤ dt.year) (hy1 : dt.year ≤ 2099)
    (hw : dt.dayOfWeek < 256) :
    (now (setDateTime r dt)).1.year = dt.year ∧
    (now (setDateTime r dt)).1.month = dt.month ∧
    (now (setDateTime r dt)).1.date = dt.date ∧
    (now (setDateTime r dt)).1.hour = dt.hour ∧
    (now (setDateTime r dt)).1.minute = dt.minute ∧
    (now (setDateTime r dt)).1.second = dt.second ∧
    (now (setDateTime r dt)).1.dayOfWeek = dt.dayOfWeek ∧
    (now (setDateTime r dt)).1 = dt ∧
    (now (setDateTime r dt)).2 = setDateTime r dt := by
  have hy : dt.yOff ≤ 99 := by
    unfold DateTime.year at hy0 hy1
    unfold DateTime.year2k at hb
    omega
  have hbytes := setDateTime_bytes_valid dt hs hmi hh hd hm hy
  obtain ⟨t0, t1, t2, t3, t4, t5, t6, -⟩ :=
    transmit_time r (bcdOf dt.ss) (bcdOf dt.mm) (bcdOf dt.hh) dt.wday (bcdOf dt.d) (bcdOf dt.m)
      (bcdOf dt.yOff)
  obtain ⟨-, b0, c0⟩ := bin2bcd_eq_bcdOf dt.ss (by change dt.ss < 60 at hs; omega)
  obtain ⟨-, b1, c1⟩ := bin2bcd_eq_bcdOf dt.mm (by change dt.mm < 60 at hmi; omega)
  obtain ⟨-, -, c2, -, b2⟩ := bcdOf_hour dt.hh hh
  obtain ⟨-, b4, c4⟩ := bin2bcd_eq_bcdOf dt.d (by change dt.d ≤ 31 at hd; omega)
  obtain ⟨-, b5, c5⟩ := bin2bcd_eq_bcdOf dt.m (by change dt.m ≤ 12 at hm; omega)
  obtain ⟨-, b6, c6⟩ := bin2bcd_eq_bcdOf dt.yOff (by omega)
  have key : (now (setDateTime r dt)).1 = dt := by
    have hw2 : dt.wday % 256 = dt.wday := Nat.mod_eq_of_lt hw
    have hyear : (dt.yOff + 2000) % 65536 = dt.yOff + 2000 := by omega
    have hge : dt.yOff + 2000 ≥ 2000 := by omega
    have hsub : (dt.yOff + 2000 - 2000) % 256 = dt.yOff := by omega
    unfold now
    simp only [Regs.transmit, Regs.writeSeq, readSeq_time, List.getD_cons_zero,
      List.getD_cons_succ]
    unfold setDateTime
    rw [hbytes, t0, t1, t2, t3, t4, t5, t6]
    rw [Nat.mod_eq_of_lt b0, Nat.mod_eq_of_lt b1, Nat.mod_eq_of_lt (by omega : bcdOf dt.hh < 256),
      Nat.mod_eq_of_lt b4, Nat.mod_eq_of_lt b5, Nat.mod_eq_of_lt b6, hw2, c0, c1, c2, c4, c5, c6,
      (bin2bcd_eq_bcdOf dt.hh (by change dt.hh < 24 at hh; omega)).2.2, hyear]
    unfold DateTime.ofFields
    simp only [hge, if_true, hsub]
  refine ⟨by rw [key], by rw [key], by rw [key], by rw [key], by rw [key], by rw [key],
    by rw [key], key, rfl⟩

/-- C13, witness: 2023-03-05 09:02:07 with the weekday byte 200, on a register
file holding `0xFF` everywhere. -/
theorem now_after_setDateTime_witness :
    (DateTime.second ⟨23, 3, 5, 9, 2, 7, 200⟩ < 60 ∧ DateTime.minute ⟨23, 3, 5, 9, 2, 7, 200⟩ < 60 ∧
      DateTime.hour ⟨23, 3, 5, 9, 2, 7, 200⟩ < 24 ∧ DateTime.date ⟨23, 3, 5, 9, 2, 7, 200⟩ ≤ 31 ∧
      DateTime.month ⟨23, 3, 5, 9, 2, 7, 200⟩ ≤ 12 ∧
      DateTime.year2k ⟨23, 3, 5, 9, 2, 7, 200⟩ < 256 ∧
      2000 ≤ DateTime.year ⟨23, 3, 5, 9, 2, 7, 200⟩ ∧
      DateTime.year ⟨23, 3, 5, 9, 2, 7, 200⟩ ≤ 2099 ∧
      DateTime.dayOfWeek ⟨23, 3, 5, 9, 2, 7, 200⟩ < 256) ∧
    ((now (setDateTime (fun _ => 0xFF) ⟨23, 3, 5, 9, 2, 7, 200⟩)).1.year
        = DateTime.year ⟨23, 3, 5, 9, 2, 7, 200⟩ ∧
    (now (setDateTime (fun _ => 0xFF) ⟨23, 3, 5, 9, 2, 7, 200⟩)).1.month
        = DateTime.month ⟨23, 3, 5, 9, 2, 7, 200⟩ ∧
    (now (setDateTime (fun _ => 0xFF) ⟨23, 3, 5, 9, 2, 7, 200⟩)).1.date
        = DateTime.date ⟨23, 3, 5, 9, 2, 7, 200⟩ ∧
    (now (setDateTime (fun _ => 0xFF) ⟨23, 3, 5, 9, 2, 7, 200⟩)).1.hour
        = DateTime.hour ⟨23, 3, 5, 9, 2, 7, 200⟩ ∧
    (now (setDateTime (fun _ => 0xFF) ⟨23, 3, 5, 9, 2, 7, 200⟩)).1.minute
        = DateTime.minute ⟨23, 3, 5, 9, 2, 7, 200⟩ ∧
    (now (setDateTime (fun _ => 0xFF) ⟨23, 3, 5, 9, 2, 7, 200⟩)).1.second
        = DateTime.second ⟨23, 3, 5, 9, 2, 7, 200⟩ ∧
    (now (setDateTime (fun _ => 0xFF) ⟨23, 3, 5, 9, 2, 7, 200⟩)).1.dayOfWeek
        = DateTime.dayOfWeek ⟨23, 3, 5, 9, 2, 7, 200⟩ ∧
    (now (setDateTime (fun _ => 0xFF) ⟨23, 3, 5, 9, 2, 7, 200⟩)).1 = ⟨23, 3, 5, 9, 2, 7, 200⟩ ∧
    (now (setDateTime (fun _ => 0xFF) ⟨23, 3, 5, 9, 2, 7, 200⟩)).2
        = setDateTime (fun _ => 0xFF) ⟨23, 3, 5, 9, 2, 7, 200⟩) :=
  ⟨by decide,
   now_after_setDateTime (fun _ => 0xFF) ⟨23, 3, 5, 9, 2, 7, 200⟩ (by decide) (by decide)
    (by decide) (by decide) (by decide) (by decide) (by decide) (by decide) (by decide)⟩

/-- C14: from every register-file state, `begin` returns 1 and leaves the
control register `0x0E` equal to `0x1C` (bits 0 and 1, the alarm interrupt
enables, clear), the hour register `0x02` equal to its previous byte with bit 6
cleared and its other seven bits kept, and every other register unchanged. -/
theorem begin_effect (r : Regs) :
    (begin r).1 = 1 ∧
    (begin r).2 0x0E = 0x1C ∧
    Nat.testBit ((begin r).2 0x0E) 0 = false ∧ Nat.testBit ((begin r).2 0x0E) 1 = false ∧
    (begin r).2 0x02 = (r 0x02 % 256) &&& 0b10111111 ∧
    Nat.testBit ((begin r).2 0x02) 6 = false ∧
    (∀ i, i < 8 → i ≠ 6 → Nat.testBit ((begin r).2 0x02) i = Nat.testBit (r 0x02) i) ∧
    (begin r).2 0x02 < 256 ∧
    ∀ a, a ≠ 0x0E → a ≠ 0x02 → (begin r).2 a = r a := by
  have hc : (begin r).2 0x0E = 0x1C := by
    simp [begin, writeRegister_apply, readRegister_eq, DS3231_CONTROL_REG, DS3231_HOUR_REG]
  have hh : (begin r).2 0x02 = (r 0x02 % 256) &&& 0b10111111 := by
    simp [begin, writeRegister_apply, readRegister_eq, DS3231_CONTROL_REG, DS3231_HOUR_REG]
  obtain ⟨l1, l2, l3⟩ := land_BF (r 0x02)
  refine ⟨rfl, hc, by rw [hc]; decide, by rw [hc]; decide, hh, by rw [hh]; exact l1, ?_,
    by rw [hh]; exact l3, ?_⟩
  · intro i hi hne
    rw [hh]
    exact l2 i hi hne
  · intro a h1 h2
    simp [begin, writeRegister_apply, readRegister_eq, DS3231_CONTROL_REG, DS3231_HOUR_REG,
      h1, h2]

/-- C15: from every register-file state, `clearINTStatus` leaves the status
register `0x0F` equal to its previous byte with bit 0 cleared and bits 1..7
kept, changes no other register, and a second call changes nothing. -/
theorem clearINTStatus_effect (r : Regs) :
    clearINTStatus r 0x0F = (r 0x0F % 256) &&& 0b11111110 ∧
    Nat.testBit (clearINTStatus r 0x0F) 0 = false ∧
    (∀ i, 1 ≤ i → i < 8 → Nat.testBit (clearINTStatus r 0x0F) i = Nat.testBit (r 0x0F) i) ∧
    clearINTStatus r 0x0F < 256 ∧
    (∀ a, a ≠ 0x0F → clearINTStatus r a = r a) ∧
    clearINTStatus (clearINTStatus r) = clearINTStatus r := by
  have hs : ∀ q : Regs, clearINTStatus q 0x0F = (q 0x0F % 256) &&& 0b11111110 := by
    intro q
    simp [clearINTStatus, writeRegister_apply, readRegister_eq, DS3231_STATUS_REG]
  have ho : ∀ (q : Regs) (a : Nat), a ≠ 0x0F → clearINTStatus q a = q a := by
    intro q a ha
    simp [clearINTStatus, writeRegister_apply, readRegister_eq, DS3231_STATUS_REG, ha]
  obtain ⟨l1, l2, l3, l4⟩ := land_FE (r 0x0F)
  refine ⟨hs r, by rw [hs r]; exact l1, ?_, by rw [hs r]; exact l3, ho r, ?_⟩
  · intro i h1 hi
    rw [hs r]
    exact l2 i h1 hi
  · funext a
    by_cases ha : a = 0x0F
    · subst ha
      rw [hs (clearINTStatus r), hs r]
      exact l4
    · rw [ho _ a ha]

/-- C16: `enableInterrupts(periodicity)` writes `0x1D` to the control register
and, to the alarm-1 registers `0x07..0x0A`, the bytes `80 80 80 80` for
`EverySecond`, `00 80 80 80` for `EveryMinute` and `00 00 80 80` for
`EveryHour`, leaving every other register unchanged; the number of always-match
bits set is 4, 3, 2, each step clearing one more, first at the seconds register
and then at the minutes register. -/
theorem enableInterrupts_patterns (r : Regs) :
    (∀ a, enableInterrupts r EverySecond a =
      if a = 0x0A then 0x80 else if a = 0x09 then 0x80 else if a = 0x08 then 0x80
      else if a = 0x07 then 0x80 else if a = 0x0E then 0x1D else r a) ∧
    (∀ a, enableInterrupts r EveryMinute a =
      if a = 0x0A then 0x80 else if a = 0x09 then 0x80 else if a = 0x08 then 0x80
      else if a = 0x07 then 0x00 else if a = 0x0E then 0x1D else r a) ∧
    (∀ a, enableInterrupts r EveryHour a =
      if a = 0x0A then 0x80 else if a = 0x09 then 0x80 else if a = 0x08 then 0x00
      else if a = 0x07 then 0x00 else if a = 0x0E then 0x1D else r a) ∧
    alarm1MaskCount (enableInterrupts r EverySecond) = 4 ∧
    alarm1MaskCount (enableInterrupts r EveryMinute) = 3 ∧
    alarm1MaskCount (enableInterrupts r EveryHour) = 2 := by
  have h1 : ∀ a, enableInterrupts r EverySecond a =
      if a = 0x0A then 0x80 else if a = 0x09 then 0x80 else if a = 0x08 then 0x80
      else if a = 0x07 then 0x80 else if a = 0x0E then 0x1D else r a := by
    intro a
    have e : enableInterrupts r EverySecond = writeRegister (writeRegister (writeRegister
        (writeRegister (writeRegister r DS3231_CONTROL_REG 0x1D) DS3231_AL1SEC_REG 0x80)
        DS3231_AL1MIN_REG 0x80) DS3231_AL1HOUR_REG 0x80) DS3231_AL1WDAY_REG 0x80 := rfl
    rw [e, alarm1_writes_apply]
  have h2 : ∀ a, enableInterrupts r EveryMinute a =
      if a = 0x0A then 0x80 else if a = 0x09 then 0x80 else if a = 0x08 then 0x80
      else if a = 0x07 then 0x00 else if a = 0x0E then 0x1D else r a := by
    intro a
    have e : enableInterrupts r EveryMinute = writeRegister (writeRegister (writeRegister
        (writeRegister (writeRegister r DS3231_CONTROL_REG 0x1D) DS3231_AL1SEC_REG 0x00)
        DS3231_AL1MIN_REG 0x80) DS3231_AL1HOUR_REG 0x80) DS3231_AL1WDAY_REG 0x80 := rfl
    rw [e, alarm1_writes_apply]
  have h3 : ∀ a, enableInterrupts r EveryHour a =
      if a = 0x0A then 0x80 else if a = 0x09 then 0x80 else if a = 0x08 then 0x00
      else if a = 0x07 then 0x00 else if a = 0x0E then 0x1D else r a := by
    intro a
    have e : enableInterrupts r EveryHour = writeRegister (writeRegister (writeRegister
        (writeRegister (writeRegister r DS3231_CONTROL_REG 0x1D) DS3231_AL1SEC_REG 0x00)
        DS3231_AL1MIN_REG 0x00) DS3231_AL1HOUR_REG 0x80) DS3231_AL1WDAY_REG 0x80 := rfl
    rw [e, alarm1_writes_apply]
  have t1 : Nat.testBit 128 7 = true := by decide
  have t0 : Nat.testBit 0 7 = false := by decide
  have hr : List.range 4 = [0, 1, 2, 3] := rfl
  refine ⟨h1, h2, h3, ?_, ?_, ?_⟩
  · simp [alarm1MaskCount, hr, List.filter_cons, h1, t1]
  · simp [alarm1MaskCount, hr, List.filter_cons, h2, t1, t0]
  · simp [alarm1MaskCount, hr, List.filter_cons, h3, t1, t0]

/-- C17: for every `hh24 < 24`, `mm < 60` and `ss < 60`,
`enableInterrupts(hh24, mm, ss)` writes `0x1D` to the control register and
bcd(ss), bcd(mm), bcd(hh24), `0x80` to the alarm-1 registers `0x07`, `0x08`,
`0x09`, `0x0A`, leaving every other register unchanged: bit 7 is clear on the
seconds, minutes and hours registers and set on the day/date register, and bit 6
of the hours register is clear. -/
theorem enableInterrupts_hms_writes (r : Regs) (hh24 mm ss : Nat) (hh : hh24 < 24)
    (hm : mm < 60) (hs : ss < 60) :
    (∀ a, enableInterrupts_hms r hh24 mm ss a =
      if a = 0x0A then 0x80 else if a = 0x09 then bcdOf hh24 else if a = 0x08 then bcdOf mm
      else if a = 0x07 then bcdOf ss else if a = 0x0E then 0x1D else r a) ∧
    Nat.testBit (enableInterrupts_hms r hh24 mm ss 0x07) 7 = false ∧
    Nat.testBit (enableInterrupts_hms r hh24 mm ss 0x08) 7 = false ∧
    Nat.testBit (enableInterrupts_hms r hh24 mm ss 0x09) 7 = false ∧
    Nat.testBit (enableInterrupts_hms r hh24 mm ss 0x0A) 7 = true ∧
    Nat.testBit (enableInterrupts_hms r hh24 mm ss 0x09) 6 = false := by
  have key : ∀ a, enableInterrupts_hms r hh24 mm ss a =
      if a = 0x0A then 0x80 else if a = 0x09 then bcdOf hh24 else if a = 0x08 then bcdOf mm
      else if a = 0x07 then bcdOf ss else if a = 0x0E then 0x1D else r a := by
    intro a
    unfold enableInterrupts_hms
    rw [alarm1_writes_apply, Nat.zero_or, Nat.zero_or, Nat.zero_or,
      (bin2bcd_eq_bcdOf ss (by omega)).1, (bin2bcd_eq_bcdOf mm (by omega)).1, (bcdOf_hour hh24 hh).2.1]
    rfl
  have hbs := (bcdOf_lt60 ss hs).2.1
  have hbm := (bcdOf_lt60 mm hm).2.1
  have hbh := (bcdOf_lt60 hh24 (by omega)).2.1
  have hb6 := (bcdOf_hour hh24 hh).2.2.2.1
  refine ⟨key, ?_, ?_, ?_, ?_, ?_⟩
  · rw [key]; simpa using hbs
  · rw [key]; simpa using hbm
  · rw [key]; simpa using hbh
  · rw [key]; simp only [if_true]; decide
  · rw [key]; simpa using hb6

/-- C17, witness: the alarm time 23:59:59 on a register file holding `0xFF`
everywhere; the bytes are `59 59 23 80`. -/
theorem enableInterrupts_hms_writes_witness :
    (23 < 24 ∧ 59 < 60 ∧ 59 < 60) ∧
    (enableInterrupts_hms (fun _ => 0xFF) 23 59 59 0x07 = 0x59 ∧
     enableInterrupts_hms (fun _ => 0xFF) 23 59 59 0x08 = 0x59 ∧
     enableInterrupts_hms (fun _ => 0xFF) 23 59 59 0x09 = 0x23 ∧
     enableInterrupts_hms (fun _ => 0xFF) 23 59 59 0x0A = 0x80 ∧
     enableInterrupts_hms (fun _ => 0xFF) 23 59 59 0x0E = 0x1D) ∧
    ((∀ a, enableInterrupts_hms (fun _ => 0xFF) 23 59 59 a =
      if a = 0x0A then 0x80 else if a = 0x09 then bcdOf 23 else if a = 0x08 then bcdOf 59
      else if a = 0x07 then bcdOf 59 else if a = 0x0E then 0x1D else (fun _ => 0xFF) a) ∧
    Nat.testBit (enableInterrupts_hms (fun _ => 0xFF) 23 59 59 0x07) 7 = false ∧
    Nat.testBit (enableInterrupts_hms (fun _ => 0xFF) 23 59 59 0x08) 7 = false ∧
    Nat.testBit (enableInterrupts_hms (fun _ => 0xFF) 23 59 59 0x09) 7 = false ∧
    Nat.testBit (enableInterrupts_hms (fun _ => 0xFF) 23 59 59 0x0A) 7 = true ∧
    Nat.testBit (enableInterrupts_hms (fun _ => 0xFF) 23 59 59 0x09) 6 = false) :=
  ⟨by decide, by decide,
   enableInterrupts_hms_writes (fun _ => 0xFF) 23 59 59 (by decide) (by decide) (by decide)⟩

/-- C18: for every `seconds < 60`, `minutes < 60`, `hh24 < 24` and `daydate` in
1..31, the general `enableInterrupts` writes alarm-1 registers `0x07..0x0A`
whose low bits are bcd(seconds), bcd(minutes), bcd(hh24), bcd(daydate) and whose
always-match bits (bit 7, in register order) are 1,1,1,1 for `EVERY_SECOND`,
0,1,1,1 for `MATCH_SECONDS`, 0,0,1,1 for `MATCH_MINUTES`, 0,0,0,1 for
`MATCH_HOURS` and 0,0,0,0 for `MATCH_DATE`; for `MATCH_DATE` bit 6 of the
day/date register, the day/date-vs-weekday select, is clear. -/
theorem enableInterrupts_alarm_masks (r : Regs) (daydate hh24 minutes seconds : Nat)
    (hs : seconds < 60) (hm : minutes < 60) (hh : hh24 < 24) (hd1 : 1 ≤ daydate)
    (hd2 : daydate ≤ 31) :
    alarm1Holds (enableInterrupts_alarm r EVERY_SECOND daydate hh24 minutes seconds)
      seconds minutes hh24 daydate true true true true ∧
    alarm1Holds (enableInterrupts_alarm r MATCH_SECONDS daydate hh24 minutes seconds)
      seconds minutes hh24 daydate false true true true ∧
    alarm1Holds (enableInterrupts_alarm r MATCH_MINUTES daydate hh24 minutes seconds)
      seconds minutes hh24 daydate false false true true ∧
    alarm1Holds (enableInterrupts_alarm r MATCH_HOURS daydate hh24 minutes seconds)
      seconds minutes hh24 daydate false false false true ∧
    alarm1Holds (enableInterrupts_alarm r MATCH_DATE daydate hh24 minutes seconds)
      seconds minutes hh24 daydate false false false false ∧
    Nat.testBit (enableInterrupts_alarm r MATCH_DATE daydate hh24 minutes seconds 0x0A) 6
      = false := by
  obtain ⟨s1, s2, s3, s4⟩ := alarmByte_facts seconds hs
  obtain ⟨m1, m2, m3, m4⟩ := alarmByte_facts minutes hm
  obtain ⟨h1, h2, h3, h4⟩ := alarmByte_facts hh24 (by omega)
  obtain ⟨d1, d2, d3, d4⟩ := alarmByte_facts daydate (by omega)
  have d6 : Nat.testBit (bin2bcd daydate) 6 = false := by
    have : ∀ n, n ≤ 31 → Nat.testBit (bin2bcd n) 6 = false := by decide
    exact this daydate hd2
  refine ⟨?_, ?_, ?_, ?_, ?_, ?_⟩
  · simp only [alarm1Holds, enableInterrupts_alarm_apply, EVERY_SECOND]
    simp +decide [s3, s4, m3, m4, h3, h4, d3, d4]
  · simp only [alarm1Holds, enableInterrupts_alarm_apply, MATCH_SECONDS]
    simp +decide [s1, s2, m3, m4, h3, h4, d3, d4]
  · simp only [alarm1Holds, enableInterrupts_alarm_apply, MATCH_MINUTES]
    simp +decide [s1, s2, m1, m2, h3, h4, d3, d4]
  · simp only [alarm1Holds, enableInterrupts_alarm_apply, MATCH_HOURS]
    simp +decide [s1, s2, m1, m2, h1, h2, d3, d4]
  · simp only [alarm1Holds, enableInterrupts_alarm_apply, MATCH_DATE]
    simp +decide [s1, s2, m1, m2, h1, h2, d1, d2]
  · simp only [enableInterrupts_alarm_apply, MATCH_DATE]
    simp +decide [d6]

/-- C18, witness: day 31, 23:59:59 on a register file holding `0xFF`
everywhere; `EVERY_SECOND` stores `D9 D9 A3 B1`, `MATCH_DATE` stores
`59 59 23 31`. -/
theorem enableInterrupts_alarm_masks_witness :
    (59 < 60 ∧ 59 < 60 ∧ 23 < 24 ∧ 1 ≤ 31 ∧ 31 ≤ 31) ∧
    ((List.range 4).map (fun i => enableInterrupts_alarm (fun _ => 0xFF) EVERY_SECOND 31 23 59 59
        (0x07 + i)) = [0xD9, 0xD9, 0xA3, 0xB1] ∧
     (List.range 4).map (fun i => enableInterrupts_alarm (fun _ => 0xFF) MATCH_DATE 31 23 59 59
        (0x07 + i)) = [0x59, 0x59, 0x23, 0x31]) ∧
    (alarm1Holds (enableInterrupts_alarm (fun _ => 0xFF) EVERY_SECOND 31 23 59 59)
      59 59 23 31 true true true true ∧
    alarm1Holds (enableInterrupts_alarm (fun _ => 0xFF) MATCH_SECONDS 31 23 59 59)
      59 59 23 31 false true true true ∧
    alarm1Holds (enableInterrupts_alarm (fun _ => 0xFF) MATCH_MINUTES 31 23 59 59)
      59 59 23 31 false false true true ∧
    alarm1Holds (enableInterrupts_alarm (fun _ => 0xFF) MATCH_HOURS 31 23 59 59)
      59 59 23 31 false false false true ∧
    alarm1Holds (enableInterrupts_alarm (fun _ => 0xFF) MATCH_DATE 31 23 59 59)
      59 59 23 31 false false false false ∧
    Nat.testBit (enableInterrupts_alarm (fun _ => 0xFF) MATCH_DATE 31 23 59 59 0x0A) 6
      = false) :=
  ⟨by decide, by decide,
   enableInterrupts_alarm_masks (fun _ => 0xFF) 31 23 59 59 (by decide) (by decide) (by decide)
    (by decide) (by decide)⟩

/-- C19, the code at the failing input: for `MATCH_DAY` with weekday 3 and the
time 12:30:15, the general `enableInterrupts` ORs `0x40` into the hours byte and
not into the day byte: the day/date register `0x0A` holds `0x03` with bit 6
(DY/DT) clear, and the hours register `0x09` holds `0x52`, bcd(12) with bit 6
set. -/
theorem enableInterrupts_alarm_matchDay_bit6 (r : Regs) :
    (1 ≤ 3 ∧ 3 ≤ 7 ∧ 12 < 24 ∧ 30 < 60 ∧ 15 < 60) ∧
    enableInterrupts_alarm r MATCH_DAY 3 12 30 15 0x07 = 0x15 ∧
    enableInterrupts_alarm r MATCH_DAY 3 12 30 15 0x08 = 0x30 ∧
    enableInterrupts_alarm r MATCH_DAY 3 12 30 15 0x09 = 0x52 ∧
    enableInterrupts_alarm r MATCH_DAY 3 12 30 15 0x0A = 0x03 ∧
    bcdOf 12 = 0x12 ∧ bcdOf 3 = 0x03 ∧
    Nat.testBit (enableInterrupts_alarm r MATCH_DAY 3 12 30 15 0x0A) 6 = false ∧
    Nat.testBit (enableInterrupts_alarm r MATCH_DAY 3 12 30 15 0x09) 6 = true := by
  have e7 : enableInterrupts_alarm r MATCH_DAY 3 12 30 15 0x07 = 0x15 := by
    rw [enableInterrupts_alarm_apply]; simp +decide [MATCH_DAY]
  have e8 : enableInterrupts_alarm r MATCH_DAY 3 12 30 15 0x08 = 0x30 := by
    rw [enableInterrupts_alarm_apply]; simp +decide [MATCH_DAY]
  have e9 : enableInterrupts_alarm r MATCH_DAY 3 12 30 15 0x09 = 0x52 := by
    rw [enableInterrupts_alarm_apply]; simp +decide [MATCH_DAY]
  have eA : enableInterrupts_alarm r MATCH_DAY 3 12 30 15 0x0A = 0x03 := by
    rw [enableInterrupts_alarm_apply]; simp +decide [MATCH_DAY]
  refine ⟨by decide, e7, e8, e9, eA, by decide, by decide, ?_, ?_⟩
  · rw [eA]; decide
  · rw [e9]; decide

/-- C20: for every register-file state and every byte count reported by the
bus, `enableInterruptsCheckAlm1(p)` returns `0xFF` exactly when `p` is none of
`EverySecond`, `EveryMinute`, `EveryHour`, and `enableInterruptsCheckAlm2(p)`
returns `0xFF` exactly when `p` is none of `EveryMinute`, `EveryHour`; for a
valid `p` the result is at most `0x1F`; neither helper changes a register. -/
theorem checkAlm_sentinel (r : Regs) (sz_read p : Nat) :
    ((enableInterruptsCheckAlm1 r sz_read p).1 = 0xFF ↔
      ¬ (p = EverySecond ∨ p = EveryMinute ∨ p = EveryHour)) ∧
    ((enableInterruptsCheckAlm2 r sz_read p).1 = 0xFF ↔
      ¬ (p = EveryMinute ∨ p = EveryHour)) ∧
    ((p = EverySecond ∨ p = EveryMinute ∨ p = EveryHour) →
      (enableInterruptsCheckAlm1 r sz_read p).1 ≤ 0x1F) ∧
    ((p = EveryMinute ∨ p = EveryHour) →
      (enableInterruptsCheckAlm2 r sz_read p).1 ≤ 0x1F) ∧
    (enableInterruptsCheckAlm1 r sz_read p).2 = r ∧
    (enableInterruptsCheckAlm2 r sz_read p).2 = r := by
  have b1 := checkAlm1_lt r sz_read p
  have b2 := checkAlm2_lt r sz_read p
  have n1 : ¬ (p = EverySecond ∨ p = EveryMinute ∨ p = EveryHour) →
      (enableInterruptsCheckAlm1 r sz_read p).1 = 0xFF := by
    intro hp
    simp only [not_or] at hp
    simp only [enableInterruptsCheckAlm1, hp.1, hp.2.1, hp.2.2, if_false]
  have n2 : ¬ (p = EveryMinute ∨ p = EveryHour) →
      (enableInterruptsCheckAlm2 r sz_read p).1 = 0xFF := by
    intro hp
    simp only [not_or] at hp
    simp only [enableInterruptsCheckAlm2, hp.1, hp.2, if_false]
  refine ⟨⟨?_, n1⟩, ⟨?_, n2⟩, ?_, ?_, ?_, ?_⟩
  · intro h hp
    have := b1 hp
    rw [h] at this
    exact absurd this (by decide)
  · intro h hp
    have := b2 hp
    rw [h] at this
    exact absurd this (by decide)
  · intro hp
    have := b1 hp
    omega
  · intro hp
    have := b2 hp
    omega
  · unfold enableInterruptsCheckAlm1
    simp only [readRegister_eq]
    split
    · rfl
    · split <;> rfl
  · unfold enableInterruptsCheckAlm2
    simp only []
    split
    · rfl
    · split <;> rfl

/-- C21: for `p` one of `EverySecond`, `EveryMinute`, `EveryHour` and a read-back
that delivers all four alarm-1 bytes, the result of
`enableInterruptsCheckAlm1(p)` has bit `0x01` set iff
`(control & 0x05) != 0x05`, bit `0x02` iff register `0x07` differs from the
reference seconds byte, bit `0x04` iff `0x08` differs from the reference minutes
byte, bit `0x08` iff `0x09` differs from the reference hours byte, bit `0x10`
iff `0x0A` differs from the reference day byte, and no other bit set; it is 0
iff alarm 1 is enabled in the control register and the four registers equal the
reference pattern of `p`. -/
theorem checkAlm1_bits (r : Regs) (sz_read p : Nat) (hsz : sz_read = DS3231_ALM1_SZ)
    (hp : p = EverySecond ∨ p = EveryMinute ∨ p = EveryHour) :
    (Nat.testBit (enableInterruptsCheckAlm1 r sz_read p).1 0 = true ↔
      (r 0x0E % 256) &&& 0x05 ≠ 0x05) ∧
    (Nat.testBit (enableInterruptsCheckAlm1 r sz_read p).1 1 = true ↔
      r 0x07 % 256 ≠ (alm1RefOf p).getD 0 0) ∧
    (Nat.testBit (enableInterruptsCheckAlm1 r sz_read p).1 2 = true ↔
      r 0x08 % 256 ≠ (alm1RefOf p).getD 1 0) ∧
    (Nat.testBit (enableInterruptsCheckAlm1 r sz_read p).1 3 = true ↔
      r 0x09 % 256 ≠ (alm1RefOf p).getD 2 0) ∧
    (Nat.testBit (enableInterruptsCheckAlm1 r sz_read p).1 4 = true ↔
      r 0x0A % 256 ≠ (alm1RefOf p).getD 3 0) ∧
    (∀ i, 5 ≤ i → Nat.testBit (enableInterruptsCheckAlm1 r sz_read p).1 i = false) ∧
    ((enableInterruptsCheckAlm1 r sz_read p).1 = 0 ↔
      (r 0x0E % 256) &&& 0x05 = 0x05 ∧
      [r 0x07 % 256, r 0x08 % 256, r 0x09 % 256, r 0x0A % 256] = alm1RefOf p) := by
  subst hsz
  have hl : ∃ x0 x1 x2 x3, alm1RefOf p = [x0, x1, x2, x3] := by
    rcases hp with h | h | h <;> rw [h] <;> exact ⟨_, _, _, _, rfl⟩
  obtain ⟨x0, x1, x2, x3, hx⟩ := hl
  have e := checkAlm1_eq r p hp
  rw [show DS3231_ALM1_SZ = 4 from rfl, e]
  obtain ⟨t0, t1, t2, t3, t4, tlt, tz⟩ := or5_bits ((r 0x0E % 256) &&& 0x05 ≠ 0x05)
    (r 0x07 % 256 ≠ (alm1RefOf p).getD 0 0) (r 0x08 % 256 ≠ (alm1RefOf p).getD 1 0)
    (r 0x09 % 256 ≠ (alm1RefOf p).getD 2 0) (r 0x0A % 256 ≠ (alm1RefOf p).getD 3 0)
  refine ⟨t0, t1, t2, t3, t4, ?_, ?_⟩
  · intro i hi
    apply Nat.testBit_lt_two_pow
    exact lt_of_lt_of_le tlt (Nat.pow_le_pow_right (by decide) hi)
  · rw [tz, hx]
    simp only [List.getD_cons_zero, List.getD_cons_succ, not_not, List.cons.injEq, and_true]

/-- C21, witness: `EveryMinute` on a register file holding `0x1D` in control and
`00 80 80 81` in `0x07..0x0A`: only the day byte differs, the result is
`0x10`. -/
theorem checkAlm1_bits_witness :
    (4 = DS3231_ALM1_SZ ∧ (EveryMinute = EverySecond ∨ EveryMinute = EveryMinute ∨
      EveryMinute = EveryHour)) ∧
    (enableInterruptsCheckAlm1
      (fun a => if a = 0x0E then 0x1D else if a = 0x07 then 0x00 else if a = 0x0A then 0x81
        else 0x80) 4 EveryMinute).1 = 0x10 ∧
    ((Nat.testBit (enableInterruptsCheckAlm1
      (fun a => if a = 0x0E then 0x1D else if a = 0x07 then 0x00 else if a = 0x0A then 0x81
        else 0x80) 4 EveryMinute).1 0 = true ↔
      ((fun a => if a = 0x0E then 0x1D else if a = 0x07 then 0x00 else if a = 0x0A then 0x81
        else 0x80) 0x0E % 256) &&& 0x05 ≠ 0x05) ∧
    (Nat.testBit (enableInterruptsCheckAlm1
      (fun a => if a = 0x0E then 0x1D else if a = 0x07 then 0x00 else if a = 0x0A then 0x81
        else 0x80) 4 EveryMinute).1 1 = true ↔
      (fun a => if a = 0x0E then 0x1D else if a = 0x07 then 0x00 else if a = 0x0A then 0x81
        else 0x80) 0x07 % 256 ≠ (alm1RefOf EveryMinute).getD 0 0) ∧
    (Nat.testBit (enableInterruptsCheckAlm1
      (fun a => if a = 0x0E then 0x1D else if a = 0x07 then 0x00 else if a = 0x0A then 0x81
        else 0x80) 4 EveryMinute).1 2 = true ↔
      (fun a => if a = 0x0E then 0x1D else if a = 0x07 then 0x00 else if a = 0x0A then 0x81
        else 0x80) 0x08 % 256 ≠ (alm1RefOf EveryMinute).getD 1 0) ∧
    (Nat.testBit (enableInterruptsCheckAlm1
      (fun a => if a = 0x0E then 0x1D else if a = 0x07 then 0x00 else if a = 0x0A then 0x81
        else 0x80) 4 EveryMinute).1 3 = true ↔
      (fun a => if a = 0x0E then 0x1D else if a = 0x07 then 0x00 else if a = 0x0A then 0x81
        else 0x80) 0x09 % 256 ≠ (alm1RefOf EveryMinute).getD 2 0) ∧
    (Nat.testBit (enableInterruptsCheckAlm1
      (fun a => if a = 0x0E then 0x1D else if a = 0x07 then 0x00 else if a = 0x0A then 0x81
        else 0x80) 4 EveryMinute).1 4 = true ↔
      (fun a => if a = 0x0E then 0x1D else if a = 0x07 then 0x00 else if a = 0x0A then 0x81
        else 0x80) 0x0A % 256 ≠ (alm1RefOf EveryMinute).getD 3 0) ∧
    (∀ i, 5 ≤ i → Nat.testBit (enableInterruptsCheckAlm1
      (fun a => if a = 0x0E then 0x1D else if a = 0x07 then 0x00 else if a = 0x0A then 0x81
        else 0x80) 4 EveryMinute).1 i = false) ∧
    ((enableInterruptsCheckAlm1
      (fun a => if a = 0x0E then 0x1D else if a = 0x07 then 0x00 else if a = 0x0A then 0x81
        else 0x80) 4 EveryMinute).1 = 0 ↔
      ((fun a => if a = 0x0E then 0x1D else if a = 0x07 then 0x00 else if a = 0x0A then 0x81
        else 0x80) 0x0E % 256) &&& 0x05 = 0x05 ∧
      [(fun a => if a = 0x0E then 0x1D else if a = 0x07 then 0x00 else if a = 0x0A then 0x81
        else 0x80) 0x07 % 256,
       (fun a => if a = 0x0E then 0x1D else if a = 0x07 then 0x00 else if a = 0x0A then 0x81
        else 0x80) 0x08 % 256,
       (fun a => if a = 0x0E then 0x1D else if a = 0x07 then 0x00 else if a = 0x0A then 0x81
        else 0x80) 0x09 % 256,
       (fun a => if a = 0x0E then 0x1D else if a = 0x07 then 0x00 else if a = 0x0A then 0x81
        else 0x80) 0x0A % 256] = alm1RefOf EveryMinute)) :=
  ⟨by decide, by decide,
   checkAlm1_bits
    (fun a => if a = 0x0E then 0x1D else if a = 0x07 then 0x00 else if a = 0x0A then 0x81
      else 0x80) 4 EveryMinute (by decide) (by decide)⟩

/-- C22: on a register file that stores written bytes and delivers every
requested byte, from every starting state, `enableInterrupts(p)` followed by
`enableInterruptsCheckAlm1(p)` returns 0 for `p` each of `EverySecond`,
`EveryMinute`, `EveryHour`, and `enableInterruptsAlm2(p)` followed by
`enableInterruptsCheckAlm2(p)` returns 0 for `p` each of `EveryMinute`,
`EveryHour`. -/
theorem enable_then_check (r : Regs) :
    (enableInterruptsCheckAlm1 (enableInterrupts r EverySecond) 4 EverySecond).1 = 0 ∧
    (enableInterruptsCheckAlm1 (enableInterrupts r EveryMinute) 4 EveryMinute).1 = 0 ∧
    (enableInterruptsCheckAlm1 (enableInterrupts r EveryHour) 4 EveryHour).1 = 0 ∧
    (enableInterruptsCheckAlm2 (enableInterruptsAlm2 r EveryMinute) 4 EveryMinute).1 = 0 ∧
    (enableInterruptsCheckAlm2 (enableInterruptsAlm2 r EveryHour) 4 EveryHour).1 = 0 := by
  have e1 : enableInterrupts r EverySecond = writeRegister (writeRegister (writeRegister
      (writeRegister (writeRegister r DS3231_CONTROL_REG 0x1D) DS3231_AL1SEC_REG 0x80)
      DS3231_AL1MIN_REG 0x80) DS3231_AL1HOUR_REG 0x80) DS3231_AL1WDAY_REG 0x80 := rfl
  have e2 : enableInterrupts r EveryMinute = writeRegister (writeRegister (writeRegister
      (writeRegister (writeRegister r DS3231_CONTROL_REG 0x1D) DS3231_AL1SEC_REG 0x00)
      DS3231_AL1MIN_REG 0x80) DS3231_AL1HOUR_REG 0x80) DS3231_AL1WDAY_REG 0x80 := rfl
  have e3 : enableInterrupts r EveryHour = writeRegister (writeRegister (writeRegister
      (writeRegister (writeRegister r DS3231_CONTROL_REG 0x1D) DS3231_AL1SEC_REG 0x00)
      DS3231_AL1MIN_REG 0x00) DS3231_AL1HOUR_REG 0x80) DS3231_AL1WDAY_REG 0x80 := rfl
  refine ⟨?_, ?_, ?_, ?_, ?_⟩
  · rw [checkAlm1_eq _ _ (Or.inl rfl), e1]
    simp +decide [alarm1_writes_apply, alm1RefOf, alm1Ref_1second_pm, alm1Ref_1minute_pm,
      alm1Ref_1hour_pm, EverySecond, EveryMinute, EveryHour]
  · rw [checkAlm1_eq _ _ (Or.inr (Or.inl rfl)), e2]
    simp +decide [alarm1_writes_apply, alm1RefOf, alm1Ref_1second_pm, alm1Ref_1minute_pm,
      alm1Ref_1hour_pm, EverySecond, EveryMinute, EveryHour]
  · rw [checkAlm1_eq _ _ (Or.inr (Or.inr rfl)), e3]
    simp +decide [alarm1_writes_apply, alm1RefOf, alm1Ref_1second_pm, alm1Ref_1minute_pm,
      alm1Ref_1hour_pm, EverySecond, EveryMinute, EveryHour]
  · rw [(checkAlm2_eq _).1]
    simp +decide [(enableInterruptsAlm2_apply r _).1]
  · rw [(checkAlm2_eq _).2]
    simp +decide [(enableInterruptsAlm2_apply r _).2]

/-- C23, the code at the failing input: with the temperature registers holding
`0xFF` and `0x40` (the reading -0.75 degrees: whole part -1, fraction 1/4),
`getTemperature` returns -1.25, not -0.75. For a whole byte below 128 the result
is the reading; for a whole byte from 128 up it is the whole part minus the
fraction. -/
theorem getTemperature_negative_fraction :
    (getTemperature (fun a => if a = 0x11 then 0xFF else if a = 0x12 then 0x40 else 0)).1
      = -5 / 4 ∧
    temperatureOf 0xFF 0x40 = -3 / 4 ∧
    (∀ r : Regs, r 0x11 % 256 < 128 →
      (getTemperature r).1 = temperatureOf (r 0x11) (r 0x12)) ∧
    (∀ r : Regs, 128 ≤ r 0x11 % 256 →
      (getTemperature r).1 =
        (int8Of (r 0x11) : ℚ) - (((r 0x12 % 256) >>> 6 : Nat) : ℚ) / 4) := by
  have gen1 : ∀ r : Regs, r 0x11 % 256 < 128 →
      (getTemperature r).1 = temperatureOf (r 0x11) (r 0x12) := by
    intro r hu
    have hz := (tempByte_facts (r 0x11 % 256) (Nat.mod_lt _ (by decide))).1 hu
    simp only [getTemperature, readRegister_eq, DS3231_TMP_UP_REG, DS3231_TMP_LOW_REG, hz,
      ne_eq, not_true_eq_false, if_false, temperatureOf, int8Of, hu, if_true,
      Int.cast_natCast]
    ring
  have gen2 : ∀ r : Regs, 128 ≤ r 0x11 % 256 →
      (getTemperature r).1 =
        (int8Of (r 0x11) : ℚ) - (((r 0x12 % 256) >>> 6 : Nat) : ℚ) / 4 := by
    intro r hu
    have hlt : r 0x11 % 256 < 256 := Nat.mod_lt _ (by decide)
    obtain ⟨hnz, hneg⟩ := (tempByte_facts (r 0x11 % 256) hlt).2 hu
    have hnot : ¬ r 0x11 % 256 < 128 := by omega
    simp only [getTemperature, readRegister_eq, DS3231_TMP_UP_REG, DS3231_TMP_LOW_REG, ne_eq,
      hnz, not_false_eq_true, if_true, hneg, int8Of, hnot, if_false]
    rw [Nat.cast_sub (le_of_lt hlt)]
    simp only [Int.cast_sub, Int.cast_natCast, Int.cast_ofNat, Nat.cast_ofNat]
    ring
  have e6 : (0x40 % 256) >>> 6 = 1 := by decide
  have e8 : int8Of 0xFF = -1 := by decide
  refine ⟨?_, ?_, gen1, gen2⟩
  · rw [gen2 _ (by decide)]
    simp only [if_true, if_false, e8]
    simp +decide only [if_true, if_false, e6]
    norm_num
  · simp only [temperatureOf, e6, e8]
    norm_num

/-- C24, the code at the failing input: called with `waitToFinish = true`,
`convertTemperature` returns after the trigger write without a single poll of
the control register, whatever the chip would report; called with
`waitToFinish = false` it polls, returning at the third read when the chip
reports `0x3C, 0x3C, 0x1C` and not returning while every read shows CONV set.
The trigger write itself sets bit 5 of the control register and keeps its other
seven bits and every other register. -/
theorem convertTemperature_wait_inverted (r : Regs) (reads : List Nat) :
    convertTemperature r true reads =
      some (writeRegister r 0x0E ((r 0x0E % 256) ||| 0b00100000), 0) ∧
    convertTemperature r true [0x3C, 0x3C, 0x1C] =
      some (writeRegister r 0x0E ((r 0x0E % 256) ||| 0b00100000), 0) ∧
    convertTemperature r false [0x3C, 0x3C, 0x1C] =
      some (writeRegister r 0x0E ((r 0x0E % 256) ||| 0b00100000), 3) ∧
    convertTemperature r false [0x3C, 0x3C] = none ∧
    Nat.testBit (writeRegister r 0x0E ((r 0x0E % 256) ||| 0b00100000) 0x0E) 5 = true ∧
    (∀ i, i < 8 → i ≠ 5 →
      Nat.testBit (writeRegister r 0x0E ((r 0x0E % 256) ||| 0b00100000) 0x0E) i
        = Nat.testBit (r 0x0E) i) ∧
    (∀ a, a ≠ 0x0E → writeRegister r 0x0E ((r 0x0E % 256) ||| 0b00100000) a = r a) := by
  obtain ⟨l1, l2⟩ := lor_20 (r 0x0E)
  have hv : writeRegister r 0x0E ((r 0x0E % 256) ||| 0b00100000) 0x0E
      = (r 0x0E % 256) ||| 0b00100000 := by
    rw [writeRegister_apply, if_pos rfl]
  refine ⟨rfl, rfl, rfl, rfl, by rw [hv]; exact l1, ?_, ?_⟩
  · intro i hi hne
    rw [hv]
    exact l2 i hi hne
  · intro a ha
    rw [writeRegister_apply, if_neg ha]

/-- C25: for every linear second count `t` with `0 ≤ t < 2^31`, the weekday
computed by `DateTime(t)` is `((t div 86400) + 6) mod 7 + 1`: day 0 is
Saturday = 7, and when `t` grows by 86400 the weekday advances by one, wrapping
from 7 to 1. -/
theorem weekday_matches_day_count (t : Int) (h0 : 0 ≤ t) (h1 : t < 2147483648) :
    (∃ dt, DateTime.ofLong t = some dt ∧
      dt.dayOfWeek = ((t / 86400).toNat + 6) % 7 + 1) ∧
    DateTime.ofLong 0 = some ⟨0, 1, 1, 0, 0, 0, 7⟩ ∧
    (t + 86400 < 2147483648 →
      ∃ dt dt2, DateTime.ofLong t = some dt ∧ DateTime.ofLong (t + 86400) = some dt2 ∧
        dt2.dayOfWeek = dt.dayOfWeek % 7 + 1) := by
  obtain ⟨dt, hdt, hw⟩ := ofLong_weekday t h0 h1
  refine ⟨⟨dt, hdt, hw⟩, by decide, ?_⟩
  intro h2
  obtain ⟨dt2, hdt2, hw2⟩ := ofLong_weekday (t + 86400) (by omega) h2
  refine ⟨dt, dt2, hdt, hdt2, ?_⟩
  show dt2.wday = dt.wday % 7 + 1
  rw [hw, hw2]
  unfold weekdayOfDay
  have e : ((t + 86400) / 86400).toNat = (t / 86400).toNat + 1 := by omega
  rw [e]
  omega

/-- C25, witness: `t = 2147483647` (2068-01-19, day 24855, a Thursday = 5) and,
one day earlier, `t = 2147397247` (a Wednesday = 4). -/
theorem weekday_matches_day_count_witness :
    ((0 : Int) ≤ 2147397247 ∧ (2147397247 : Int) < 2147483648 ∧
      (2147397247 : Int) + 86400 < 2147483648) ∧
    DateTime.ofLong 2147397247 = some ⟨68, 1, 18, 3, 14, 7, 4⟩ ∧
    DateTime.ofLong (2147397247 + 86400) = some ⟨68, 1, 19, 3, 14, 7, 5⟩ ∧
    ((∃ dt, DateTime.ofLong 2147397247 = some dt ∧
      dt.dayOfWeek = (((2147397247 : Int) / 86400).toNat + 6) % 7 + 1) ∧
    DateTime.ofLong 0 = some ⟨0, 1, 1, 0, 0, 0, 7⟩ ∧
    ((2147397247 : Int) + 86400 < 2147483648 →
      ∃ dt dt2, DateTime.ofLong 2147397247 = some dt ∧
        DateTime.ofLong (2147397247 + 86400) = some dt2 ∧
        dt2.dayOfWeek = dt.dayOfWeek % 7 + 1)) :=
  ⟨by decide, by decide, by decide,
   weekday_matches_day_count 2147397247 (by decide) (by decide)⟩

/-- C26: for every argument `t` of `DateTime(long)`, negative values included,
the year loop and the month loop both return within their iteration budgets,
the month loop makes no read outside the 12-entry table (such a read is the
only way it gives `none`, and it is made exactly for an index outside 1..12),
and the resulting month is in 1..12; `t = -1` and `t = -2^31` give month 1. -/
theorem ofLong_terminates (t : Int) :
    (∃ (y : Nat) (r : Int) (m : Nat) (r2 : Int) (dt : DateTime),
      yearLoop yearFuel 0 (toI16 (Int.tdiv (Int.tdiv (Int.tdiv t 60) 60) 24)) =
        some (y, r, if y % 4 = 0 then 1 else 0) ∧
      monthLoop monthFuel 1 r (if y % 4 = 0 then 1 else 0) = some (m, r2) ∧
      1 ≤ m ∧ m ≤ 12 ∧ DateTime.ofLong t = some dt ∧ dt.month = m) ∧
    (∀ k, readDaysInMonth k = none ↔ (k = 0 ∨ 12 < k)) ∧
    DateTime.ofLong (-1) = some ⟨0, 1, 1, 0, 0, 255, 7⟩ ∧
    DateTime.ofLong (-2147483648) = some ⟨0, 1, 234, 253, 242, 248, 2⟩ := by
  obtain ⟨y, r, m, r2, dt, hyl, hml, hm1, hm12, hdt, hm, -⟩ := ofLong_total t
  refine ⟨⟨y, r, m, r2, dt, hyl, hml, hm1, hm12, hdt, hm⟩, ?_, by decide, by decide⟩
  intro k
  unfold readDaysInMonth
  by_cases hk : k = 0
  · simp [hk]
  · simp only [hk, if_false, false_or]
    rw [List.getElem?_eq_none_iff]
    have : daysInMonth.length = 12 := rfl
    omega

end Sodaq
